import Mathlib

/-!
Shallow embedding of `src/gmail.py` (an MCP server exposing Gmail/Calendar
tools) and proofs about its normalization, credential, composition and
tool-boundary logic.

Conventions:
* A Python `str` is modelled as `PyStr := List Nat` — a list of Unicode code
  points.  (Python strings may contain lone surrogates, which Lean `String`
  cannot represent, and surrogate handling matters for the decode-error
  paths, so we do not use Lean `String` directly.)
* Byte strings are `List Nat` with every element `< 256`.
* Python exceptions are modelled with `Except PyStr`; the error value models
  `str(e)`.  Exact exception-message texts are modelled by representative
  strings — no claim depends on the precise wording of a cause.
-/

/-- Model of a Python `str`: a list of Unicode code points. -/
abbrev PyStr := List Nat

/-- Inject a Lean string literal into the `PyStr` model. -/
def pyStr (s : String) : PyStr := s.data.map Char.toNat

/-- True for code points that are Unicode scalar values, i.e. encodable by
Python's utf-8 codec (lone surrogates U+D800..U+DFFF are rejected). -/
def isScalar (c : Nat) : Bool := c < 0xD800 || (0xE000 ≤ c && c < 0x110000)

/-! ## Base64 (model of Python `base64.urlsafe_b64decode` / `urlsafe_b64encode`
and `base64.encodebytes`). -/

/-- Sextet value of a base64 alphabet character.  `urlsafe_b64decode` first
translates `-`→`+` and `_`→`/` and then runs the standard decoder, so both
the standard (`+`,`/`) and urlsafe (`-`,`_`) characters are accepted. -/
def b64Val (c : Nat) : Option Nat :=
  if 65 ≤ c && c ≤ 90 then some (c - 65)
  else if 97 ≤ c && c ≤ 122 then some (c - 97 + 26)
  else if 48 ≤ c && c ≤ 57 then some (c - 48 + 52)
  else if c = 43 || c = 45 then some 62
  else if c = 47 || c = 95 then some 63
  else none

/-- Whether a code point is a base64 data character. -/
def isB64Char (c : Nat) : Bool := (b64Val c).isSome

/-- Reassemble bytes from a stream of sextet values: each full group of four
sextets yields three bytes; a final group of three yields two bytes, of two
yields one byte, and a dangling single sextet is an error (as in CPython's
binascii). -/
def b64Quads : List Nat → Except PyStr (List Nat)
  | [] => .ok []
  | [_] => .error (pyStr "Invalid padding")
  | [a, b] => .ok [a * 4 + b / 16]
  | [a, b, c] => .ok [a * 4 + b / 16, (b % 16) * 16 + c / 4]
  | a :: b :: c :: d :: rest =>
    match b64Quads rest with
    | .ok t => .ok ((a * 4 + b / 16) :: ((b % 16) * 16 + c / 4) :: ((c % 4) * 64 + d) :: t)
    | .error e => .error e

/-- Model of `base64.urlsafe_b64decode` applied to a `str`.  The argument is
first ASCII-encoded (failing on any code point ≥ 128), then the legacy
binascii decoder discards characters outside the alphabet, stops at the first
`=`, and raises `binascii.Error` when the data length is not a valid base64
length (a group of one sextet, or an unpadded non-multiple-of-four). -/
def b64urlDecode (s : PyStr) : Except PyStr (List Nat) :=
  if s.all (fun c => c < 128) then
    let kept := s.filter (fun c => isB64Char c || c == 61)
    let vals := (kept.takeWhile (fun c => c != 61)).filterMap b64Val
    if vals.length % 4 == 1 then .error (pyStr "Invalid padding")
    else if vals.length % 4 != 0 && !(kept.contains 61) then
      .error (pyStr "Incorrect padding")
    else b64Quads vals
  else .error (pyStr "ASCII encoding of base64 input failed")

/-- Character of the urlsafe base64 alphabet for a sextet value. -/
def b64Char (n : Nat) : Nat :=
  if n < 26 then 65 + n
  else if n < 52 then 97 + (n - 26)
  else if n < 62 then 48 + (n - 52)
  else if n = 62 then 45
  else 95

/-- Character of the standard base64 alphabet for a sextet value. -/
def b64StdChar (n : Nat) : Nat :=
  if n = 62 then 43 else if 63 ≤ n then 47 else b64Char n

/-- Base64-encode a byte string with the given alphabet, emitting `=`
padding exactly as CPython's `binascii.b2a_base64` does. -/
def b64EncodeWith (chr : Nat → Nat) : List Nat → PyStr
  | [] => []
  | [a] => [chr (a / 4), chr ((a % 4) * 16), 61, 61]
  | [a, b] => [chr (a / 4), chr ((a % 4) * 16 + b / 16), chr ((b % 16) * 4), 61]
  | a :: b :: c :: rest =>
    chr (a / 4) :: chr ((a % 4) * 16 + b / 16) :: chr ((b % 16) * 4 + c / 64) ::
      chr (c % 64) :: b64EncodeWith chr rest

/-- Model of `base64.urlsafe_b64encode(..).decode()` (line 163). -/
def b64urlEncode (bs : List Nat) : PyStr := b64EncodeWith b64Char bs

/-- Wrap a character stream into 76-character lines, each terminated by a
newline, as `base64.encodebytes` does. -/
def wrap76 : PyStr → PyStr
  | [] => []
  | a :: s => (a :: s).take 76 ++ [10] ++ wrap76 ((a :: s).drop 76)
termination_by s => s.length
decreasing_by simp [List.length_drop]; omega

/-- Model of `base64.encodebytes(..).decode('ascii')`, the payload encoder
used by `email.encoders.encode_base64` and by the utf-8 text charset. -/
def encodebytes (bs : List Nat) : PyStr := wrap76 (b64EncodeWith b64StdChar bs)

/-! ## UTF-8 (model of Python `bytes.decode('utf-8', errors='replace')` and
`str.encode('utf-8')`). -/

/-- UTF-8 byte sequence of a Unicode scalar value. -/
def utf8EncodeChar (c : Nat) : List Nat :=
  if c < 0x80 then [c]
  else if c < 0x800 then [0xC0 + c / 64, 0x80 + c % 64]
  else if c < 0x10000 then [0xE0 + c / 4096, 0x80 + c / 64 % 64, 0x80 + c % 64]
  else [0xF0 + c / 262144, 0x80 + c / 4096 % 64, 0x80 + c / 64 % 64, 0x80 + c % 64]

/-- UTF-8 bytes of a code-point string (meaningful when all points are
scalar values). -/
def utf8Bytes (s : PyStr) : List Nat :=
  s.foldr (fun c acc => utf8EncodeChar c ++ acc) []

/-- Model of `str.encode('utf-8')`: fails on lone surrogates. -/
def utf8Encode (s : PyStr) : Except PyStr (List Nat) :=
  if s.all isScalar then .ok (utf8Bytes s)
  else .error (pyStr "utf-8 codec cannot encode character: surrogates not allowed")

/-- Whether a byte is a UTF-8 continuation byte. -/
def utf8Cont (b : Nat) : Bool := 0x80 ≤ b && b < 0xC0

/-- First-continuation restrictions for three-byte leads (excludes overlong
encodings and surrogates). -/
def utf8ValidE (b b1 : Nat) : Bool :=
  (b != 0xE0 || 0xA0 ≤ b1) && (b != 0xED || b1 < 0xA0)

/-- First-continuation restrictions for four-byte leads (excludes overlong
encodings and points above U+10FFFF). -/
def utf8ValidF (b b1 : Nat) : Bool :=
  (b != 0xF0 || 0x90 ≤ b1) && (b != 0xF4 || b1 < 0x90)

/-- Model of `bytes.decode('utf-8', errors='replace')`: valid sequences are
decoded, any malformed prefix yields U+FFFD and resumes after the offending
lead byte.  (CPython's replacement-count policy differs in some malformed
corners; no claim depends on malformed-input replacement counts.) -/
def utf8DecodeReplace : List Nat → PyStr
  | [] => []
  | b :: rest =>
    if b < 0x80 then b :: utf8DecodeReplace rest
    else
      match rest with
      | b1 :: r1 =>
        if 0xC2 ≤ b && b < 0xE0 && utf8Cont b1 then
          ((b - 0xC0) * 64 + (b1 - 0x80)) :: utf8DecodeReplace r1
        else
          match r1 with
          | b2 :: r2 =>
            if 0xE0 ≤ b && b < 0xF0 && utf8Cont b1 && utf8Cont b2 && utf8ValidE b b1 then
              ((b - 0xE0) * 4096 + (b1 - 0x80) * 64 + (b2 - 0x80)) :: utf8DecodeReplace r2
            else
              match r2 with
              | b3 :: r3 =>
                if 0xF0 ≤ b && b < 0xF5 && utf8Cont b1 && utf8Cont b2 && utf8Cont b3
                    && utf8ValidF b b1 then
                  ((b - 0xF0) * 262144 + (b1 - 0x80) * 4096 + (b2 - 0x80) * 64 + (b3 - 0x80)) ::
                    utf8DecodeReplace r3
                else 0xFFFD :: utf8DecodeReplace (b1 :: b2 :: b3 :: r3)
              | [] => 0xFFFD :: utf8DecodeReplace (b1 :: b2 :: ([] : List Nat))
          | [] => 0xFFFD :: utf8DecodeReplace (b1 :: ([] : List Nat))
      | [] => [0xFFFD]

/-! ## Message normalizer (the inline record-building logic of
`get_inbox_emails`, src/gmail.py lines 84-125; the same code is duplicated
in `search_emails` and `get_sent_emails`). -/

/-- A raw header object: one element of `message['payload']['headers']`. -/
structure RawHeader where
  name : PyStr
  value : PyStr
deriving DecidableEq, Repr

/-- A raw body object (`part['body']` / `payload['body']`); the `data` key
may be absent, in which case `['data']` raises `KeyError`. -/
structure PartBody where
  data : Option PyStr
deriving DecidableEq, Repr

/-- One element of `message['payload']['parts']`; the `body` key may be
absent. -/
structure RawPart where
  mimeType : PyStr
  body : Option PartBody
deriving DecidableEq, Repr

/-- The `message['payload']` object.  `parts` is `some` exactly when the
`'parts'` key is present (even with an empty list), `body` exactly when the
`'body'` key is present. -/
structure RawPayload where
  headers : List RawHeader
  parts : Option (List RawPart)
  body : Option PartBody
deriving DecidableEq, Repr

/-- A raw provider message as consumed by the normalization code; `id`,
`threadId` and `payload` are accessed unconditionally, `snippet` and
`labelIds` through `.get` with a default. -/
structure RawMessage where
  id : PyStr
  threadId : PyStr
  snippet : Option PyStr
  payload : RawPayload
  labelIds : Option (List PyStr)
deriving DecidableEq, Repr

/-- Model of `header['value'].encode('utf-8').decode('utf-8', errors='replace')`
(line 89): encoding fails on lone surrogates, in which case the `except`
branch (line 92) substitutes a placeholder for this header only; on success
the value round-trips through utf-8. -/
def decodeHeaderValue (v : PyStr) : PyStr :=
  match utf8Encode v with
  | .ok bs => utf8DecodeReplace bs
  | .error cause => pyStr "[Error decoding header: " ++ cause ++ pyStr "]"

/-- Insert into a Python-dict model (association list with unique keys):
an existing key is overwritten in place, a new key is appended. -/
def dictSet (d : List (PyStr × PyStr)) (k v : PyStr) : List (PyStr × PyStr) :=
  match d with
  | [] => [(k, v)]
  | (k', v') :: t => if k' = k then (k, v) :: t else (k', v') :: dictSet t k v

/-- Model of `dict.get(k, dflt)`. -/
def dictGet (d : List (PyStr × PyStr)) (k dflt : PyStr) : PyStr :=
  match d with
  | [] => dflt
  | (k', v') :: t => if k' = k then v' else dictGet t k dflt

/-- The header-dict construction loop (lines 85-92). -/
def buildHeaders (hs : List RawHeader) : List (PyStr × PyStr) :=
  hs.foldl (fun d h => dictSet d h.name (decodeHeaderValue h.value)) []

/-- Access `x['body']['data']` and base64url-decode then utf-8-decode it
(lines 101-102 / 106-107); any raised error is reported for the caller's
`except` branch. -/
def decodeBodyData (pb : Option PartBody) : Except PyStr PyStr :=
  match pb with
  | none => .error (pyStr "KeyError: body")
  | some b =>
    match b.data with
    | none => .error (pyStr "KeyError: data")
    | some d =>
      match b64urlDecode d with
      | .ok bytes => .ok (utf8DecodeReplace bytes)
      | .error e => .error e

/-- The part-scanning loop (lines 99-103): first part whose `mimeType`
equals `'text/plain'`, if any. -/
def findPlainPart : List RawPart → Option RawPart
  | [] => none
  | p :: rest => if p.mimeType = pyStr "text/plain" then some p else findPlainPart rest

/-- The placeholder produced by the body `except` branch (line 109). -/
def bodyPlaceholder (cause : PyStr) : PyStr :=
  pyStr "[Error decoding body: " ++ cause ++ pyStr "]"

/-- The body-extraction block (lines 94-109): with a `'parts'` key, scan for
the first plain-text part and decode it (body stays `''` when none matches);
with no `'parts'` key but a `'body'` key, decode the top-level body; any
exception turns the whole body into the placeholder. -/
def extractBody (pl : RawPayload) : PyStr :=
  match pl.parts with
  | some parts =>
    match findPlainPart parts with
    | none => []
    | some p =>
      match decodeBodyData p.body with
      | .ok t => t
      | .error c => bodyPlaceholder c
  | none =>
    match pl.body with
    | some b =>
      match decodeBodyData (some b) with
      | .ok t => t
      | .error c => bodyPlaceholder c
    | none => []

/-- The flat record shape appended at lines 111-125. -/
structure EmailRecord where
  id : PyStr
  threadId : PyStr
  snippet : PyStr
  from_ : PyStr
  to_ : PyStr
  subject : PyStr
  date : PyStr
  body : PyStr
  labels : List PyStr
  has_attachments : Bool
  importance : PyStr
  cc : PyStr
  bcc : PyStr
deriving DecidableEq, Repr

/-- The per-message normalization of `get_inbox_emails` (lines 84-125):
header dict, body extraction, and record construction. -/
def normalizeMessage (m : RawMessage) : EmailRecord :=
  let headers := buildHeaders m.payload.headers
  { id := m.id
    threadId := m.threadId
    snippet := m.snippet.getD []
    from_ := dictGet headers (pyStr "From") []
    to_ := dictGet headers (pyStr "To") []
    subject := dictGet headers (pyStr "Subject") []
    date := dictGet headers (pyStr "Date") []
    body := extractBody m.payload
    labels := m.labelIds.getD []
    has_attachments := !(m.payload.parts.getD []).isEmpty
    importance := dictGet headers (pyStr "Importance") (pyStr "normal")
    cc := dictGet headers (pyStr "Cc") []
    bcc := dictGet headers (pyStr "Bcc") [] }

/-! ## Credential acquisition (`get_gmail_service`, lines 28-46, and
`get_calendar_service`, lines 48-62).

The google-auth library objects are outside this repository; following the
spec we model a credential by its token/expiry/refresh-token state, with
validity derived from expiry ("validity flag derived from expiry", spec §3),
and we model the outcomes of the two external effects — the refresh-token
exchange and the interactive flow — as parameters.  Every `pickle.dump` is
recorded in a trace, as is the number of refresh and interactive-flow
invocations. -/

/-- Modelled from the spec: the google-auth credential object — access token
presence, expiry, optional refresh token; `valid` is derived ("validity flag
derived from expiry"). -/
structure Credential where
  hasToken : Bool
  expired : Bool
  refreshToken : Bool
deriving DecidableEq, Repr

/-- Modelled from the spec: `creds.valid` of the google-auth library —
derived from token presence and expiry. -/
def Credential.valid (c : Credential) : Bool := c.hasToken && !c.expired

/-- Observable side effects of one service-acquisition call: how many times
`creds.refresh` ran, how many times the interactive flow ran, and every
credential written to `token.pickle` (in order). -/
structure AuthTrace where
  refreshCalls : Nat
  flowCalls : Nat
  persists : List (Option Credential)
deriving DecidableEq, Repr

/-- Model of `get_gmail_service` (lines 28-46).  `stored` is the content of
`token.pickle` (if the file exists), `refreshFn` the outcome of
`creds.refresh(Request())` (the refreshed credential, or a raised error),
`flowRes` the outcome of `InstalledAppFlow..run_local_server` (a new
credential, or a raised error).  Returns the credential handed to
`build(..)` or the raised exception, together with the effect trace. -/
def get_gmail_service (stored : Option Credential)
    (refreshFn : Credential → Except PyStr Credential)
    (flowRes : Except PyStr Credential) :
    Except PyStr Credential × AuthTrace :=
  match stored with
  | none =>
    match flowRes with
    | .ok c => (.ok c, ⟨0, 1, [some c]⟩)
    | .error e => (.error e, ⟨0, 1, []⟩)
  | some c =>
    if c.valid then (.ok c, ⟨0, 0, []⟩)
    else if c.expired && c.refreshToken then
      match refreshFn c with
      | .ok c2 => (.ok c2, ⟨1, 0, [some c2]⟩)
      | .error e => (.error e, ⟨1, 0, []⟩)
    else
      match flowRes with
      | .ok c2 => (.ok c2, ⟨0, 1, [some c2]⟩)
      | .error e => (.error e, ⟨0, 1, []⟩)

/-- Model of `get_calendar_service` (lines 48-62).  Identical loading and
refresh logic, but there is no interactive-flow fallback: when the stored
credential is missing or invalid without a usable refresh token, the
(possibly absent) credential is re-persisted as is and handed to
`build(..)`. -/
def get_calendar_service (stored : Option Credential)
    (refreshFn : Credential → Except PyStr Credential) :
    Except PyStr (Option Credential) × AuthTrace :=
  match stored with
  | none => (.ok none, ⟨0, 0, [none]⟩)
  | some c =>
    if c.valid then (.ok (some c), ⟨0, 0, []⟩)
    else if c.expired && c.refreshToken then
      match refreshFn c with
      | .ok c2 => (.ok (some c2), ⟨1, 0, [some c2]⟩)
      | .error e => (.error e, ⟨1, 0, []⟩)
    else (.ok (some c), ⟨0, 0, [some c]⟩)

/-! ## Message composer (`create_message_with_attachments`, lines 133-163).

The MIME container is modelled structurally (`MimeMessage`) plus a
serializer reproducing `message.as_bytes()` of the email package's compat32
generator for this container shape.  External collaborators are parameters:
`guess` models `mimetypes.guess_type`, `fs` models the filesystem (path ↦
readable bytes), and `boundary` models the randomly chosen multipart
boundary of `email.generator`. -/

/-- The `MIMEText(body, 'plain')` part: charset is us-ascii when the body is
pure ASCII, else utf-8 (in which case the wire payload is base64). -/
structure MimeTextPart where
  charsetUtf8 : Bool
  bodyText : PyStr
deriving DecidableEq, Repr

/-- One attachment part: `MIMEBase(main_type, sub_type)` with base64 payload
and a `Content-Disposition` filename (lines 154-161). -/
structure AttachmentPart where
  mainType : PyStr
  subType : PyStr
  filename : PyStr
  payloadB64 : PyStr
deriving DecidableEq, Repr

/-- The whole `MIMEMultipart` container with its promoted headers
(lines 140-143). -/
structure MimeMessage where
  to_ : PyStr
  from_ : PyStr
  subject : PyStr
  boundary : PyStr
  textPart : MimeTextPart
  attachments : List AttachmentPart
deriving DecidableEq, Repr

/-- Model of constructing `MIMEText(body, 'plain')` (line 144): try
us-ascii, fall back to utf-8, raise on lone surrogates. -/
def mimeTextMake (body : PyStr) : Except PyStr MimeTextPart :=
  if body.all (fun c => c < 0x80) then .ok ⟨false, body⟩
  else if body.all isScalar then .ok ⟨true, body⟩
  else .error (pyStr "utf-8 codec cannot encode character: surrogates not allowed")

/-- Model of the `content_type` selection (lines 148-150): take the guessed
type unless it is absent or an encoding was guessed, in which case use the
generic binary type. -/
def guessContentType (guess : PyStr → Option PyStr × Option PyStr) (filepath : PyStr) : PyStr :=
  match guess filepath with
  | (some ct, none) => ct
  | _ => pyStr "application/octet-stream"

/-- Model of `content_type.split('/', 1)` followed by the two-name unpacking
(line 152), which raises when there is no slash. -/
def splitSlash1 (s : PyStr) : Except PyStr (PyStr × PyStr) :=
  let pre := s.takeWhile (fun c => c != 47)
  if pre.length = s.length then .error (pyStr "not enough values to unpack")
  else .ok (pre, s.drop (pre.length + 1))

/-- Model of `os.path.basename`: the suffix after the last slash. -/
def basename (s : PyStr) : PyStr :=
  ((s.reverse.takeWhile (fun c => c != 47))).reverse

/-- The attachment loop (lines 146-161): for each path in order, guess the
content type, read the file (raising an IOError-style message when
unreadable), and append a base64-encoded part. -/
def buildAttachments (guess : PyStr → Option PyStr × Option PyStr)
    (fs : PyStr → Option (List Nat)) :
    List PyStr → Except PyStr (List AttachmentPart)
  | [] => .ok []
  | p :: rest =>
    match splitSlash1 (guessContentType guess p) with
    | .error e => .error e
    | .ok (mt, st) =>
      match fs p with
      | none => .error (pyStr "IOError: cannot read " ++ p)
      | some bytes =>
        match buildAttachments guess fs rest with
        | .ok tail => .ok (⟨mt, st, basename p, encodebytes bytes⟩ :: tail)
        | .error e => .error e

/-- Newline code point, the line separator used by `Message.as_bytes()`. -/
def nl : PyStr := [10]

/-- Double-quote code point. -/
def dq : PyStr := [34]

/-- Wire form of the text part: its three headers, a blank line, and the
payload (verbatim for us-ascii / 7bit, `encodebytes` of the utf-8 encoding
for the utf-8 / base64 charset). -/
def serializeTextPart (p : MimeTextPart) : PyStr :=
  if p.charsetUtf8 then
    pyStr "Content-Type: text/plain; charset=" ++ dq ++ pyStr "utf-8" ++ dq ++ nl ++
    pyStr "MIME-Version: 1.0" ++ nl ++
    pyStr "Content-Transfer-Encoding: base64" ++ nl ++ nl ++
    encodebytes (utf8Bytes p.bodyText)
  else
    pyStr "Content-Type: text/plain; charset=" ++ dq ++ pyStr "us-ascii" ++ dq ++ nl ++
    pyStr "MIME-Version: 1.0" ++ nl ++
    pyStr "Content-Transfer-Encoding: 7bit" ++ nl ++ nl ++
    p.bodyText

/-- Wire form of one attachment part: four headers, a blank line, and the
base64 payload. -/
def serializeAttachment (a : AttachmentPart) : PyStr :=
  pyStr "Content-Type: " ++ a.mainType ++ pyStr "/" ++ a.subType ++ nl ++
  pyStr "MIME-Version: 1.0" ++ nl ++
  pyStr "Content-Transfer-Encoding: base64" ++ nl ++
  pyStr "Content-Disposition: attachment; filename=" ++ dq ++ a.filename ++ dq ++ nl ++ nl ++
  a.payloadB64

/-- Wire form of `message.as_bytes()` (before byte-encoding) for the
container built by `create_message_with_attachments`: the five top-level
headers in insertion order (Content-Type with the generator-assigned
boundary, MIME-Version, to, from, subject), a blank line, then each part
framed by `--boundary` delimiters and a final `--boundary--` terminator, as
produced by `email.generator`'s `_handle_multipart`. -/
def serializeMime (m : MimeMessage) : PyStr :=
  pyStr "Content-Type: multipart/mixed; boundary=" ++ dq ++ m.boundary ++ dq ++ 10 ::
  (pyStr "MIME-Version: 1.0" ++ 10 ::
  (pyStr "to: " ++ m.to_ ++ 10 ::
  (pyStr "from: " ++ m.from_ ++ 10 ::
  (pyStr "subject: " ++ m.subject ++ 10 ::
  (10 ::
  (pyStr "--" ++ m.boundary ++ 10 ::
  (serializeTextPart m.textPart ++
    m.attachments.foldr
      (fun a acc => 10 :: (pyStr "--" ++ m.boundary ++ 10 :: (serializeAttachment a ++ acc))) [] ++
    10 :: (pyStr "--" ++ m.boundary ++ pyStr "--" ++ [10]))))))))

/-- The transport envelope returned at line 163. -/
structure Envelope where
  raw : PyStr
deriving DecidableEq, Repr

/-- Model of the MIME-container construction of
`create_message_with_attachments` (lines 133-161), before serialization. -/
def buildMime (guess : PyStr → Option PyStr × Option PyStr)
    (fs : PyStr → Option (List Nat)) (boundary : PyStr)
    (to_ subject body : PyStr) (attachments : Option (List PyStr)) :
    Except PyStr MimeMessage :=
  match mimeTextMake body with
  | .error e => .error e
  | .ok tp =>
    match buildAttachments guess fs (attachments.getD []) with
    | .error e => .error e
    | .ok atts => .ok ⟨to_, pyStr "me", subject, boundary, tp, atts⟩

/-- Model of `create_message_with_attachments` (lines 133-163): build the
container, serialize it to bytes, and base64url-encode the result into the
`{raw: ...}` envelope. -/
def create_message_with_attachments (guess : PyStr → Option PyStr × Option PyStr)
    (fs : PyStr → Option (List Nat)) (boundary : PyStr)
    (to_ subject body : PyStr) (attachments : Option (List PyStr)) :
    Except PyStr Envelope :=
  match buildMime guess fs boundary to_ subject body attachments with
  | .error e => .error e
  | .ok m =>
    match utf8Encode (serializeMime m) with
    | .error e => .error e
    | .ok bs => .ok ⟨b64urlEncode bs⟩

/-! ## Reading back a serialized MIME document (used to state the round-trip
claim): line splitting, the RFC-5322 header block before the first blank
line, and per-part payload decoding. -/

/-- Split a character string at newline characters (model of reading the
document line by line). -/
def splitLines (s : PyStr) : List PyStr :=
  match s with
  | [] => [[]]
  | a :: rest =>
    if a = 10 then [] :: splitLines rest
    else
      match splitLines rest with
      | [] => [[a]]
      | l :: ls => (a :: l) :: ls

/-- Parse one `name: value` header line. -/
def parseHeaderLine (l : PyStr) : Option (PyStr × PyStr) :=
  let name := l.takeWhile (fun c => c != 58)
  match l.drop name.length with
  | 58 :: 32 :: v => some (name, v)
  | _ => none

/-- The header block of a serialized message: parsed lines before the first
blank line. -/
def wireHeaders (wire : PyStr) : List (PyStr × PyStr) :=
  ((splitLines wire).takeWhile (fun l => !l.isEmpty)).filterMap parseHeaderLine

/-- First header value with the given name, as an RFC-5322 consumer of the
document would see it. -/
def headerLookup (hs : List (PyStr × PyStr)) (n : PyStr) : Option PyStr :=
  match hs with
  | [] => none
  | (k, v) :: t => if k = n then some v else headerLookup t n

/-- The stored `_payload` of the text part (what `set_payload` left in the
Python object, and what is written to the wire): the body itself for
us-ascii / 7bit, its base64-encoded utf-8 bytes for utf-8 / base64. -/
def mimeTextPayload (p : MimeTextPart) : PyStr :=
  if p.charsetUtf8 then encodebytes (utf8Bytes p.bodyText) else p.bodyText

/-- Content of the text part of a composed message after undoing its
content-transfer-encoding (what `get_payload(decode=True)` plus the part's
charset yield). -/
def textPartContent (p : MimeTextPart) : PyStr :=
  if p.charsetUtf8 then
    match b64urlDecode (mimeTextPayload p) with
    | .ok bytes => utf8DecodeReplace bytes
    | .error _ => []
  else mimeTextPayload p

/-! ## Tool surface (the six `@mcp.tool()` operations).

Each operation's external effects are parameters: the service-acquisition
outcome (an `Except`, since `get_gmail_service` / `get_calendar_service` can
raise) and the provider's RPC outcomes.  Each tool is written as the source
is: a cascade in which any raised step jumps to the outer `except` clause,
which returns the `{'error': str(e)}` value. -/

/-- Result value of a tool operation: the normal result or the
`{'error': message}` dictionary (returned, not raised). -/
inductive ToolResult (α : Type) where
  | ok (val : α)
  | error (msg : PyStr)
deriving DecidableEq

/-- The shared outer `try/except` boundary: a raised exception becomes the
`{'error': str(e)}` result. -/
def toolGuard {α : Type} : Except PyStr α → ToolResult α
  | .ok a => .ok a
  | .error e => .error e

/-- The provider response to `messages().send` (fields read at
lines 183-184). -/
structure SentMessage where
  id : PyStr
  threadId : PyStr
deriving DecidableEq, Repr

/-- Outcomes of the Gmail provider calls used by the mail tools. -/
structure MailProvider where
  listInbox : Nat → Except PyStr (List PyStr)
  searchList : PyStr → Nat → Except PyStr (List PyStr)
  listSent : Nat → Except PyStr (List PyStr)
  getMessage : PyStr → Except PyStr RawMessage
  sendMessage : Envelope → Except PyStr SentMessage

/-- The per-id fetch-and-normalize loop of `get_inbox_emails` /
`search_emails`: a failed detail fetch raises and aborts the batch,
normalization itself is total. -/
def processMessages (fetch : PyStr → Except PyStr RawMessage) :
    List PyStr → Except PyStr (List EmailRecord)
  | [] => .ok []
  | i :: rest =>
    match fetch i with
    | .error e => .error e
    | .ok m =>
      match processMessages fetch rest with
      | .error e => .error e
      | .ok t => .ok (normalizeMessage m :: t)

/-- The `get_sent_emails` variant of the record build: identical except that
the snippet is additionally passed through `encode('utf-8')` outside any
`try` (line 307), so a surrogate-bearing snippet raises. -/
def normalizeSentMessage (m : RawMessage) : Except PyStr EmailRecord :=
  match utf8Encode (m.snippet.getD []) with
  | .error e => .error e
  | .ok bs => .ok { normalizeMessage m with snippet := utf8DecodeReplace bs }

/-- The fetch-and-normalize loop of `get_sent_emails`. -/
def processSentMessages (fetch : PyStr → Except PyStr RawMessage) :
    List PyStr → Except PyStr (List EmailRecord)
  | [] => .ok []
  | i :: rest =>
    match fetch i with
    | .error e => .error e
    | .ok m =>
      match normalizeSentMessage m with
      | .error e => .error e
      | .ok r =>
        match processSentMessages fetch rest with
        | .error e => .error e
        | .ok t => .ok (r :: t)

/-- Model of the tool `get_inbox_emails` (lines 65-131). -/
def get_inbox_emails (svc : Except PyStr MailProvider) (maxResults : Nat) :
    ToolResult (List EmailRecord) :=
  match svc with
  | .error e => .error e
  | .ok p =>
    match p.listInbox maxResults with
    | .error e => .error e
    | .ok ids =>
      match processMessages p.getMessage ids with
      | .error e => .error e
      | .ok recs => .ok recs

/-- The success dictionary of `send_email` (lines 181-185). -/
structure SendSuccess where
  status : PyStr
  messageId : PyStr
  threadId : PyStr
deriving DecidableEq, Repr

/-- Model of the tool `send_email` (lines 165-188). -/
def send_email (svc : Except PyStr MailProvider)
    (guess : PyStr → Option PyStr × Option PyStr) (fs : PyStr → Option (List Nat))
    (boundary : PyStr) (to_ subject body : PyStr) (attachments : Option (List PyStr)) :
    ToolResult SendSuccess :=
  match svc with
  | .error e => .error e
  | .ok p =>
    match create_message_with_attachments guess fs boundary to_ subject body attachments with
    | .error e => .error e
    | .ok env =>
      match p.sendMessage env with
      | .error e => .error e
      | .ok sm => .ok ⟨pyStr "success", sm.id, sm.threadId⟩

/-- Model of the tool `search_emails` (lines 191-258). -/
def search_emails (svc : Except PyStr MailProvider) (query : PyStr) (maxResults : Nat) :
    ToolResult (List EmailRecord) :=
  match svc with
  | .error e => .error e
  | .ok p =>
    match p.searchList query maxResults with
    | .error e => .error e
    | .ok ids =>
      match processMessages p.getMessage ids with
      | .error e => .error e
      | .ok recs => .ok recs

/-- Model of the tool `get_sent_emails` (lines 260-323). -/
def get_sent_emails (svc : Except PyStr MailProvider) (maxResults : Nat) :
    ToolResult (List EmailRecord) :=
  match svc with
  | .error e => .error e
  | .ok p =>
    match p.listSent maxResults with
    | .error e => .error e
    | .ok ids =>
      match processSentMessages p.getMessage ids with
      | .error e => .error e
      | .ok recs => .ok recs

/-- The `start`/`end` sub-dictionary of a provider calendar event. -/
structure EventTime where
  dateTime : Option PyStr
  date : Option PyStr
deriving DecidableEq, Repr

/-- One attendee object of a provider calendar event. -/
structure RawAttendee where
  email : PyStr
deriving DecidableEq, Repr

/-- A provider calendar event as consumed by `get_calendar_events`
(lines 343-351): `id`, `start` and `end` are accessed unconditionally, the
rest through `.get`. -/
structure RawEvent where
  id : PyStr
  summary : Option PyStr
  start : EventTime
  end_ : EventTime
  attendees : Option (List RawAttendee)
  status : Option PyStr
  hangoutMeetLink : Option PyStr
deriving DecidableEq, Repr

/-- The flat event dictionary built at lines 343-351. -/
structure CalendarRecord where
  id : PyStr
  summary : Option PyStr
  start : Option PyStr
  end_ : Option PyStr
  attendees : List PyStr
  status : Option PyStr
  hangoutLink : Option PyStr
deriving DecidableEq, Repr

/-- The per-event mapping of `get_calendar_events`: `dateTime` taking
precedence over `date` on each side, attendees flattened to their email
addresses. -/
def mapEvent (e : RawEvent) : CalendarRecord :=
  { id := e.id
    summary := e.summary
    start := match e.start.dateTime with | some d => some d | none => e.start.date
    end_ := match e.end_.dateTime with | some d => some d | none => e.end_.date
    attendees := (e.attendees.getD []).map RawAttendee.email
    status := e.status
    hangoutLink := e.hangoutMeetLink }

/-- The request body built by `create_calendar_event` (lines 367-378). -/
structure EventRequest where
  summary : PyStr
  description : PyStr
  startDateTime : PyStr
  endDateTime : PyStr
  attendees : List PyStr
  conferenceRequestId : PyStr
deriving DecidableEq, Repr

/-- The provider response to `events().insert` (fields read at
lines 387-389; `id` is accessed unconditionally). -/
structure CreatedEvent where
  id : PyStr
  htmlLink : Option PyStr
  hangoutMeetLink : Option PyStr
deriving DecidableEq, Repr

/-- The result dictionary of `create_calendar_event` (lines 386-390). -/
structure CreatedResult where
  id : PyStr
  htmlLink : Option PyStr
  hangoutLink : Option PyStr
deriving DecidableEq, Repr

/-- Outcomes of the Calendar provider calls used by the calendar tools. -/
structure CalendarProvider where
  listEvents : Option PyStr → Option PyStr → Nat → Except PyStr (List RawEvent)
  insertEvent : EventRequest → Except PyStr CreatedEvent

/-- Model of the tool `get_calendar_events` (lines 325-354). -/
def get_calendar_events (svc : Except PyStr CalendarProvider)
    (timeMin timeMax : Option PyStr) (maxResults : Nat) :
    ToolResult (List CalendarRecord) :=
  match svc with
  | .error e => .error e
  | .ok p =>
    match p.listEvents timeMin timeMax maxResults with
    | .error e => .error e
    | .ok evs => .ok (evs.map mapEvent)

/-- Model of the tool `create_calendar_event` (lines 356-393); `token`
models the random `os.urandom(16).hex()` string of the per-request
conference idempotency key. -/
def create_calendar_event (svc : Except PyStr CalendarProvider) (token : PyStr)
    (summary start end_ : PyStr) (attendees : Option (List PyStr)) (description : PyStr) :
    ToolResult CreatedResult :=
  match svc with
  | .error e => .error e
  | .ok p =>
    match p.insertEvent ⟨summary, description, start, end_, attendees.getD [],
        pyStr "mcp-" ++ token⟩ with
    | .error e => .error e
    | .ok ev => .ok ⟨ev.id, ev.htmlLink, ev.hangoutMeetLink⟩

/-! ### Unguarded pipelines.

For the error-contract claim each tool body is restated, independently, as
an exception-propagating computation (`Except`, where an error models an
uncaught exception); the claim is then that each tool equals the pipeline
with `toolGuard` — the one outer `except` — applied to it. -/

/-- The body of `get_inbox_emails` as an exception-propagating pipeline. -/
def get_inbox_emails_unguarded (svc : Except PyStr MailProvider) (maxResults : Nat) :
    Except PyStr (List EmailRecord) := do
  let p ← svc
  let ids ← p.listInbox maxResults
  processMessages p.getMessage ids

/-- The body of `send_email` as an exception-propagating pipeline. -/
def send_email_unguarded (svc : Except PyStr MailProvider)
    (guess : PyStr → Option PyStr × Option PyStr) (fs : PyStr → Option (List Nat))
    (boundary : PyStr) (to_ subject body : PyStr) (attachments : Option (List PyStr)) :
    Except PyStr SendSuccess := do
  let p ← svc
  let env ← create_message_with_attachments guess fs boundary to_ subject body attachments
  let sm ← p.sendMessage env
  pure ⟨pyStr "success", sm.id, sm.threadId⟩

/-- The body of `search_emails` as an exception-propagating pipeline. -/
def search_emails_unguarded (svc : Except PyStr MailProvider) (query : PyStr)
    (maxResults : Nat) : Except PyStr (List EmailRecord) := do
  let p ← svc
  let ids ← p.searchList query maxResults
  processMessages p.getMessage ids

/-- The body of `get_sent_emails` as an exception-propagating pipeline. -/
def get_sent_emails_unguarded (svc : Except PyStr MailProvider) (maxResults : Nat) :
    Except PyStr (List EmailRecord) := do
  let p ← svc
  let ids ← p.listSent maxResults
  processSentMessages p.getMessage ids

/-- The body of `get_calendar_events` as an exception-propagating
pipeline. -/
def get_calendar_events_unguarded (svc : Except PyStr CalendarProvider)
    (timeMin timeMax : Option PyStr) (maxResults : Nat) :
    Except PyStr (List CalendarRecord) := do
  let p ← svc
  let evs ← p.listEvents timeMin timeMax maxResults
  pure (evs.map mapEvent)

/-- The body of `create_calendar_event` as an exception-propagating
pipeline. -/
def create_calendar_event_unguarded (svc : Except PyStr CalendarProvider) (token : PyStr)
    (summary start end_ : PyStr) (attendees : Option (List PyStr)) (description : PyStr) :
    Except PyStr CreatedResult := do
  let p ← svc
  let ev ← p.insertEvent ⟨summary, description, start, end_, attendees.getD [],
    pyStr "mcp-" ++ token⟩
  pure ⟨ev.id, ev.htmlLink, ev.hangoutMeetLink⟩

/-! ## Auxiliary definitions used by the verification layer. -/

/-- Sextet-value stream produced when base64-encoding a byte string. -/
def sextets : List Nat → List Nat
  | [] => []
  | [a] => [a / 4, (a % 4) * 16]
  | [a, b] => [a / 4, (a % 4) * 16 + b / 16, (b % 16) * 4]
  | a :: b :: c :: rest =>
    (a / 4) :: ((a % 4) * 16 + b / 16) :: ((b % 16) * 4 + c / 64) :: (c % 64) :: sextets rest

/-- A base64 alphabet function is sound: on sextet values it produces
distinct ASCII data characters, never the padding character. -/
def GoodAlphabet (chr : Nat → Nat) : Prop :=
  ∀ n, n < 64 → b64Val (chr n) = some n ∧ chr n < 128 ∧ chr n ≠ 61

/-- Specification of the header-dict contents: the decoded value of the last
raw header bearing exactly the given name, if any. -/
def lastHeader : List RawHeader → PyStr → Option PyStr
  | [], _ => none
  | h :: t, n =>
    match lastHeader t n with
    | some v => some v
    | none => if h.name = n then some (decodeHeaderValue h.value) else none

/-- The attachment part built for one readable path (specification value for
the order-preservation statement; the error default is never reached when
the guessed content type contains a slash). -/
def attachmentOf (guess : PyStr → Option PyStr × Option PyStr)
    (fs : PyStr → Option (List Nat)) (p : PyStr) : AttachmentPart :=
  match splitSlash1 (guessContentType guess p) with
  | .ok (mt, st) => ⟨mt, st, basename p, encodebytes ((fs p).getD [])⟩
  | .error _ => ⟨[], [], basename p, []⟩

/-- Concrete composer call used to exhibit padding in the envelope. -/
def c5Envelope : Except PyStr Envelope :=
  create_message_with_attachments (fun _ => (none, none)) (fun _ => none) (pyStr "b")
    (pyStr "a@x") (pyStr "s") (pyStr "hi") none

/-- Concrete composer call whose recipient value embeds a newline. -/
def c6Envelope : Except PyStr Envelope :=
  create_message_with_attachments (fun _ => (none, none)) (fun _ => none) (pyStr "b")
    (pyStr "a@x" ++ 10 :: pyStr "evil no colon") (pyStr "s") (pyStr "hi") none

/-- The `to` header an RFC-5322 consumer reads out of a composed envelope:
base64url-decode the raw field, utf-8-decode the bytes, parse the header
block.  `none` when composition or decoding fails. -/
def decodedToHeader (r : Except PyStr Envelope) : Option (Option PyStr) :=
  match r with
  | .error _ => none
  | .ok env =>
    match b64urlDecode env.raw with
    | .error _ => none
    | .ok bs => some (headerLookup (wireHeaders (utf8DecodeReplace bs)) (pyStr "to"))

/-! ## Helper lemmas: UTF-8 and base64 round trips. -/

theorem utf8DecodeReplace_cons_ascii (c : Nat) (rest : List Nat) (h : c < 128) :
    utf8DecodeReplace (c :: rest) = c :: utf8DecodeReplace rest := by
  rw [utf8DecodeReplace.eq_def]
  simp [h]

set_option maxRecDepth 8192 in
theorem utf8DecodeReplace_encodeChar (c : Nat) (rest : List Nat) (h : isScalar c = true) :
    utf8DecodeReplace (utf8EncodeChar c ++ rest) = c :: utf8DecodeReplace rest := by
  simp only [isScalar, Bool.or_eq_true, Bool.and_eq_true, decide_eq_true_eq] at h
  by_cases h1 : c < 0x80
  · rw [utf8EncodeChar, if_pos h1, List.singleton_append, utf8DecodeReplace.eq_def]
    simp [h1]
  · by_cases h2 : c < 0x800
    · have e1 : utf8EncodeChar c = [0xC0 + c / 64, 0x80 + c % 64] := by
        simp [utf8EncodeChar, h1, h2]
      rw [e1, List.cons_append, List.cons_append, List.nil_append,
        utf8DecodeReplace.eq_def]
      dsimp only
      have hb : ¬ (0xC0 + c / 64 < 0x80) := by omega
      have h2b : (decide (194 ≤ 0xC0 + c / 64) && decide (0xC0 + c / 64 < 224)
          && utf8Cont (0x80 + c % 64)) = true := by
        simp [utf8Cont]
        try omega
      rw [if_neg hb, if_pos h2b]
      congr 1
      omega
    · by_cases h3 : c < 0x10000
      · have e1 : utf8EncodeChar c = [0xE0 + c / 4096, 0x80 + c / 64 % 64, 0x80 + c % 64] := by
          simp [utf8EncodeChar, h1, h2, h3]
        rw [e1, List.cons_append, List.cons_append, List.cons_append, List.nil_append,
          utf8DecodeReplace.eq_def]
        dsimp only
        have hb : ¬ (0xE0 + c / 4096 < 0x80) := by omega
        have hno2 : ¬ ((decide (194 ≤ 0xE0 + c / 4096) && decide (0xE0 + c / 4096 < 224)
            && utf8Cont (0x80 + c / 64 % 64)) = true) := by
          simp
          try omega
        have hyes3 : (decide (224 ≤ 0xE0 + c / 4096) && decide (0xE0 + c / 4096 < 240)
            && utf8Cont (0x80 + c / 64 % 64) && utf8Cont (0x80 + c % 64)
            && utf8ValidE (0xE0 + c / 4096) (0x80 + c / 64 % 64)) = true := by
          simp [utf8Cont, utf8ValidE]
          try omega
        rw [if_neg hb, if_neg hno2, if_pos hyes3]
        congr 1
        omega
      · have e1 : utf8EncodeChar c =
            [0xF0 + c / 262144, 0x80 + c / 4096 % 64, 0x80 + c / 64 % 64, 0x80 + c % 64] := by
          simp [utf8EncodeChar, h1, h2, h3]
        rw [e1, List.cons_append, List.cons_append, List.cons_append, List.cons_append,
          List.nil_append, utf8DecodeReplace.eq_def]
        dsimp only
        have hb : ¬ (0xF0 + c / 262144 < 0x80) := by omega
        have hno2 : ¬ ((decide (194 ≤ 0xF0 + c / 262144) && decide (0xF0 + c / 262144 < 224)
            && utf8Cont (0x80 + c / 4096 % 64)) = true) := by
          simp
          try omega
        have hno3 : ¬ ((decide (224 ≤ 0xF0 + c / 262144) && decide (0xF0 + c / 262144 < 240)
            && utf8Cont (0x80 + c / 4096 % 64) && utf8Cont (0x80 + c / 64 % 64)
            && utf8ValidE (0xF0 + c / 262144) (0x80 + c / 4096 % 64)) = true) := by
          simp
          try omega
        have hyes4 : (decide (240 ≤ 0xF0 + c / 262144) && decide (0xF0 + c / 262144 < 245)
            && utf8Cont (0x80 + c / 4096 % 64) && utf8Cont (0x80 + c / 64 % 64)
            && utf8Cont (0x80 + c % 64)
            && utf8ValidF (0xF0 + c / 262144) (0x80 + c / 4096 % 64)) = true := by
          simp [utf8Cont, utf8ValidF]
          try omega
        rw [if_neg hb, if_neg hno2, if_neg hno3, if_pos hyes4]
        congr 1
        omega

theorem utf8_roundtrip (s : PyStr) (h : s.all isScalar = true) :
    utf8DecodeReplace (utf8Bytes s) = s := by
  induction s with
  | nil => rfl
  | cons c t ih =>
    simp only [List.all_cons, Bool.and_eq_true] at h
    rw [utf8Bytes]
    simp only [List.foldr_cons]
    rw [show (List.foldr (fun c acc => utf8EncodeChar c ++ acc) [] t) = utf8Bytes t from rfl,
      utf8DecodeReplace_encodeChar c (utf8Bytes t) h.1, ih h.2]

theorem utf8Bytes_ascii (s : PyStr) (h : s.all (fun c => c < 128) = true) :
    utf8Bytes s = s := by
  induction s with
  | nil => rfl
  | cons c t ih =>
    simp only [List.all_cons, Bool.and_eq_true, decide_eq_true_eq] at h
    rw [utf8Bytes]
    simp only [List.foldr_cons]
    rw [show (List.foldr (fun c acc => utf8EncodeChar c ++ acc) [] t) = utf8Bytes t from rfl,
      utf8EncodeChar, if_pos h.1, ih h.2, List.singleton_append]

theorem isScalar_of_ascii (c : Nat) (h : c < 128) : isScalar c = true := by
  simp [isScalar]
  omega

theorem all_isScalar_of_ascii (s : PyStr) (h : s.all (fun c => c < 128) = true) :
    s.all isScalar = true := by
  simp only [List.all_eq_true, decide_eq_true_eq] at *
  intro c hc
  exact isScalar_of_ascii c (h c hc)

theorem utf8DecodeReplace_ascii (s : PyStr) (h : s.all (fun c => c < 128) = true) :
    utf8DecodeReplace s = s := by
  have := utf8_roundtrip s (all_isScalar_of_ascii s h)
  rwa [utf8Bytes_ascii s h] at this

theorem decodeHeaderValue_scalar (v : PyStr) (h : v.all isScalar = true) :
    decodeHeaderValue v = v := by
  rw [decodeHeaderValue, utf8Encode, if_pos h]
  exact utf8_roundtrip v h

theorem b64Char_good : GoodAlphabet b64Char := by
  unfold GoodAlphabet
  decide

theorem b64StdChar_good : GoodAlphabet b64StdChar := by
  unfold GoodAlphabet
  decide

theorem encode_all_ascii (chr : Nat → Nat) (hch : GoodAlphabet chr) (bs : List Nat)
    (h : ∀ x ∈ bs, x < 256) :
    (b64EncodeWith chr bs).all (fun c => c < 128) = true := by
  induction bs using b64EncodeWith.induct chr with
  | case1 => rfl
  | case2 a =>
    have ha := h a (by simp)
    simp [b64EncodeWith, (hch (a / 4) (by omega)).2.1, (hch (a % 4 * 16) (by omega)).2.1]
  | case3 a b =>
    have ha := h a (by simp)
    have hb := h b (by simp)
    simp [b64EncodeWith, (hch (a / 4) (by omega)).2.1,
      (hch (a % 4 * 16 + b / 16) (by omega)).2.1, (hch (b % 16 * 4) (by omega)).2.1]
  | case4 a b c rest ih =>
    have ha := h a (by simp)
    have hb := h b (by simp)
    have hc := h c (by simp)
    have ih2 := ih (fun x hx => h x (by simp [hx]))
    simp only [b64EncodeWith, List.all_cons, Bool.and_eq_true, decide_eq_true_eq]
    exact ⟨(hch (a / 4) (by omega)).2.1, (hch (a % 4 * 16 + b / 16) (by omega)).2.1,
      (hch (b % 16 * 4 + c / 64) (by omega)).2.1, (hch (c % 64) (by omega)).2.1, ih2⟩

theorem encode_filter_kept (chr : Nat → Nat) (hch : GoodAlphabet chr) (bs : List Nat)
    (h : ∀ x ∈ bs, x < 256) :
    (b64EncodeWith chr bs).filter (fun c => isB64Char c || c == 61) = b64EncodeWith chr bs := by
  rw [List.filter_eq_self]
  intro x hx
  induction bs using b64EncodeWith.induct chr with
  | case1 => simp [b64EncodeWith] at hx
  | case2 a =>
    have ha := h a (by simp)
    simp only [b64EncodeWith, List.mem_cons] at hx
    rcases hx with rfl | rfl | rfl | rfl | h0
    · simp [isB64Char, (hch (a / 4) (by omega)).1]
    · simp [isB64Char, (hch (a % 4 * 16) (by omega)).1]
    · simp
    · simp
    · simp at h0
  | case3 a b =>
    have ha := h a (by simp)
    have hb := h b (by simp)
    simp only [b64EncodeWith, List.mem_cons] at hx
    rcases hx with rfl | rfl | rfl | rfl | h0
    · simp [isB64Char, (hch (a / 4) (by omega)).1]
    · simp [isB64Char, (hch (a % 4 * 16 + b / 16) (by omega)).1]
    · simp [isB64Char, (hch (b % 16 * 4) (by omega)).1]
    · simp
    · simp at h0
  | case4 a b c rest ih =>
    have ha := h a (by simp)
    have hb := h b (by simp)
    have hc := h c (by simp)
    simp only [b64EncodeWith, List.mem_cons] at hx
    rcases hx with rfl | rfl | rfl | rfl | hx
    · simp [isB64Char, (hch (a / 4) (by omega)).1]
    · simp [isB64Char, (hch (a % 4 * 16 + b / 16) (by omega)).1]
    · simp [isB64Char, (hch (b % 16 * 4 + c / 64) (by omega)).1]
    · simp [isB64Char, (hch (c % 64) (by omega)).1]
    · exact ih (fun x hx2 => h x (by simp [hx2])) hx

theorem encode_vals (chr : Nat → Nat) (hch : GoodAlphabet chr) (bs : List Nat)
    (h : ∀ x ∈ bs, x < 256) :
    ((b64EncodeWith chr bs).takeWhile (fun c => c != 61)).filterMap b64Val = sextets bs := by
  induction bs using b64EncodeWith.induct chr with
  | case1 => rfl
  | case2 a =>
    have ha := h a (by simp)
    have g1 := hch (a / 4) (by omega)
    have g2 := hch (a % 4 * 16) (by omega)
    simp only [b64EncodeWith, List.takeWhile]
    rw [show ((chr (a / 4)) != 61) = true by simp [g1.2.2],
      show ((chr (a % 4 * 16)) != 61) = true by simp [g2.2.2]]
    simp [List.takeWhile, List.filterMap, g1.1, g2.1, sextets]
  | case3 a b =>
    have ha := h a (by simp)
    have hb := h b (by simp)
    have g1 := hch (a / 4) (by omega)
    have g2 := hch (a % 4 * 16 + b / 16) (by omega)
    have g3 := hch (b % 16 * 4) (by omega)
    simp only [b64EncodeWith, List.takeWhile]
    rw [show ((chr (a / 4)) != 61) = true by simp [g1.2.2],
      show ((chr (a % 4 * 16 + b / 16)) != 61) = true by simp [g2.2.2],
      show ((chr (b % 16 * 4)) != 61) = true by simp [g3.2.2]]
    simp [List.takeWhile, List.filterMap, g1.1, g2.1, g3.1, sextets]
  | case4 a b c rest ih =>
    have ha := h a (by simp)
    have hb := h b (by simp)
    have hc := h c (by simp)
    have g1 := hch (a / 4) (by omega)
    have g2 := hch (a % 4 * 16 + b / 16) (by omega)
    have g3 := hch (b % 16 * 4 + c / 64) (by omega)
    have g4 := hch (c % 64) (by omega)
    have ih2 := ih (fun x hx => h x (by simp [hx]))
    simp only [b64EncodeWith, List.takeWhile]
    rw [show ((chr (a / 4)) != 61) = true by simp [g1.2.2],
      show ((chr (a % 4 * 16 + b / 16)) != 61) = true by simp [g2.2.2],
      show ((chr (b % 16 * 4 + c / 64)) != 61) = true by simp [g3.2.2],
      show ((chr (c % 64)) != 61) = true by simp [g4.2.2]]
    simp only [List.filterMap_cons, g1.1, g2.1, g3.1, g4.1, sextets]
    rw [ih2]

theorem encode_mem61 (chr : Nat → Nat) (hch : GoodAlphabet chr) (bs : List Nat)
    (h : ∀ x ∈ bs, x < 256) :
    61 ∈ b64EncodeWith chr bs ↔ bs.length % 3 ≠ 0 := by
  induction bs using b64EncodeWith.induct chr with
  | case1 => simp [b64EncodeWith]
  | case2 a =>
    have ha := h a (by simp)
    simp [b64EncodeWith]
  | case3 a b =>
    have ha := h a (by simp)
    simp [b64EncodeWith]
  | case4 a b c rest ih =>
    have ha := h a (by simp)
    have hb := h b (by simp)
    have hc := h c (by simp)
    have g1 := hch (a / 4) (by omega)
    have g2 := hch (a % 4 * 16 + b / 16) (by omega)
    have g3 := hch (b % 16 * 4 + c / 64) (by omega)
    have g4 := hch (c % 64) (by omega)
    have ih2 := ih (fun x hx => h x (by simp [hx]))
    simp only [b64EncodeWith, List.mem_cons, List.length_cons]
    constructor
    · intro hx
      rcases hx with h1 | h1 | h1 | h1 | h1
      · exact absurd h1.symm g1.2.2
      · exact absurd h1.symm g2.2.2
      · exact absurd h1.symm g3.2.2
      · exact absurd h1.symm g4.2.2
      · have := ih2.mp h1
        omega
    · intro hm
      have hr : rest.length % 3 ≠ 0 := by omega
      exact Or.inr (Or.inr (Or.inr (Or.inr (ih2.mpr hr))))

theorem sextets_len_mod (bs : List Nat) :
    (sextets bs).length % 4 ≠ 1 ∧ ((sextets bs).length % 4 = 0 ↔ bs.length % 3 = 0) := by
  induction bs using sextets.induct with
  | case1 => simp [sextets]
  | case2 a => simp [sextets]
  | case3 a b => simp [sextets]
  | case4 a b c rest ih =>
    simp only [sextets, List.length_cons, List.length_cons] at *
    omega

theorem b64Quads_sextets (bs : List Nat) (h : ∀ x ∈ bs, x < 256) :
    b64Quads (sextets bs) = .ok bs := by
  induction bs using sextets.induct with
  | case1 => rfl
  | case2 a =>
    have ha := h a (by simp)
    have e1 : a / 4 * 4 + a % 4 * 16 / 16 = a := by omega
    simp only [sextets, b64Quads, e1]
  | case3 a b =>
    have ha := h a (by simp)
    have hb := h b (by simp)
    have e1 : a / 4 * 4 + (a % 4 * 16 + b / 16) / 16 = a := by omega
    have e2 : (a % 4 * 16 + b / 16) % 16 * 16 + b % 16 * 4 / 4 = b := by omega
    simp only [sextets, b64Quads, e1, e2]
  | case4 a b c rest ih =>
    have ha := h a (by simp)
    have hb := h b (by simp)
    have hc := h c (by simp)
    have ih2 := ih (fun x hx => h x (by simp [hx]))
    have e1 : a / 4 * 4 + (a % 4 * 16 + b / 16) / 16 = a := by omega
    have e2 : (a % 4 * 16 + b / 16) % 16 * 16 + (b % 16 * 4 + c / 64) / 4 = b := by omega
    have e3 : (b % 16 * 4 + c / 64) % 4 * 64 + c % 64 = c := by omega
    simp only [sextets, b64Quads, ih2, e1, e2, e3]

theorem b64_roundtrip_gen (chr : Nat → Nat) (hch : GoodAlphabet chr) (bs : List Nat)
    (h : ∀ x ∈ bs, x < 256) :
    b64urlDecode (b64EncodeWith chr bs) = .ok bs := by
  rw [b64urlDecode]
  rw [if_pos (encode_all_ascii chr hch bs h)]
  simp only [encode_filter_kept chr hch bs h, encode_vals chr hch bs h]
  have hm := sextets_len_mod bs
  by_cases h3 : bs.length % 3 = 0
  · have h40 : (sextets bs).length % 4 = 0 := hm.2.mpr h3
    rw [if_neg (by simp [h40]), if_neg (by simp [h40])]
    exact b64Quads_sextets bs h
  · have h40 : (sextets bs).length % 4 ≠ 0 := fun hc => h3 (hm.2.mp hc)
    have h61 : 61 ∈ b64EncodeWith chr bs := (encode_mem61 chr hch bs h).mpr h3
    rw [if_neg (by simp [hm.1]), if_neg (by simp [h61])]
    exact b64Quads_sextets bs h

theorem b64url_roundtrip (bs : List Nat) (h : ∀ x ∈ bs, x < 256) :
    b64urlDecode (b64urlEncode bs) = .ok bs :=
  b64_roundtrip_gen b64Char b64Char_good bs h

theorem b64urlEncode_mem61 (bs : List Nat) (h : ∀ x ∈ bs, x < 256) :
    61 ∈ b64urlEncode bs ↔ bs.length % 3 ≠ 0 :=
  encode_mem61 b64Char b64Char_good bs h

theorem wrap76_filter (p : Nat → Bool) (hp : p 10 = false) (s : PyStr) :
    (wrap76 s).filter p = s.filter p := by
  induction s using wrap76.induct with
  | case1 => simp [wrap76]
  | case2 a s ih =>
    rw [wrap76, List.filter_append, List.filter_append, ih,
      show List.filter p [10] = [] by simp [hp]]
    rw [List.append_nil, ← List.filter_append, List.take_append_drop]

theorem wrap76_all (p : Nat → Bool) (hp : p 10 = true) (s : PyStr) :
    (wrap76 s).all p = s.all p := by
  induction s using wrap76.induct with
  | case1 => simp [wrap76]
  | case2 a s ih =>
    rw [wrap76, List.all_append, List.all_append, ih,
      show List.all [10] p = true by simp [hp]]
    rw [Bool.and_true, ← List.all_append, List.take_append_drop]

theorem b64urlDecode_wrap76 (s : PyStr) : b64urlDecode (wrap76 s) = b64urlDecode s := by
  rw [b64urlDecode, b64urlDecode]
  rw [wrap76_all (fun c => decide (c < 128)) (by simp) s]
  rw [wrap76_filter (fun c => isB64Char c || c == 61) (by decide) s]

theorem encodebytes_roundtrip (bs : List Nat) (h : ∀ x ∈ bs, x < 256) :
    b64urlDecode (encodebytes bs) = .ok bs := by
  rw [encodebytes, b64urlDecode_wrap76]
  exact b64_roundtrip_gen b64StdChar b64StdChar_good bs h

theorem utf8EncodeChar_lt_256 (c : Nat) (h : isScalar c = true) :
    ∀ x ∈ utf8EncodeChar c, x < 256 := by
  simp only [isScalar, Bool.or_eq_true, Bool.and_eq_true, decide_eq_true_eq] at h
  intro x hx
  by_cases h1 : c < 0x80
  · rw [utf8EncodeChar, if_pos h1] at hx
    simp only [List.mem_cons, List.not_mem_nil, or_false] at hx
    omega
  · by_cases h2 : c < 0x800
    · rw [utf8EncodeChar, if_neg h1, if_pos h2] at hx
      simp only [List.mem_cons, List.not_mem_nil, or_false] at hx
      rcases hx with rfl | rfl <;> omega
    · by_cases h3 : c < 0x10000
      · rw [utf8EncodeChar, if_neg h1, if_neg h2, if_pos h3] at hx
        simp only [List.mem_cons, List.not_mem_nil, or_false] at hx
        rcases hx with rfl | rfl | rfl <;> omega
      · rw [utf8EncodeChar, if_neg h1, if_neg h2, if_neg h3] at hx
        simp only [List.mem_cons, List.not_mem_nil, or_false] at hx
        rcases hx with rfl | rfl | rfl | rfl <;> omega

theorem utf8Bytes_lt_256 (s : PyStr) (h : s.all isScalar = true) :
    ∀ x ∈ utf8Bytes s, x < 256 := by
  induction s with
  | nil => simp [utf8Bytes]
  | cons c t ih =>
    simp only [List.all_cons, Bool.and_eq_true] at h
    intro x hx
    rw [utf8Bytes] at hx
    simp only [List.foldr_cons] at hx
    rw [show (List.foldr (fun c acc => utf8EncodeChar c ++ acc) [] t) = utf8Bytes t from rfl] at hx
    rcases List.mem_append.mp hx with h1 | h1
    · exact utf8EncodeChar_lt_256 c h.1 x h1
    · exact ih h.2 x h1

/-! ## Helper lemmas: header dictionary and part scan. -/

theorem dictGet_dictSet (d : List (PyStr × PyStr)) (k v k2 dflt : PyStr) :
    dictGet (dictSet d k v) k2 dflt = if k = k2 then v else dictGet d k2 dflt := by
  induction d with
  | nil => simp [dictSet, dictGet]
  | cons p t ih =>
    obtain ⟨k3, v3⟩ := p
    rw [dictSet]
    by_cases h1 : k3 = k
    · subst h1
      by_cases h2 : k3 = k2
      · subst h2
        simp [dictGet]
      · simp [dictGet, h2]
    · rw [if_neg h1]
      by_cases h2 : k3 = k2
      · subst h2
        have hk : ¬ (k = k3) := fun hc => h1 hc.symm
        simp [dictGet, hk]
      · simp only [dictGet, if_neg h2, ih]

theorem dictGet_foldl (hs : List RawHeader) (d : List (PyStr × PyStr)) (n dflt : PyStr) :
    dictGet (hs.foldl (fun d h => dictSet d h.name (decodeHeaderValue h.value)) d) n dflt =
      match lastHeader hs n with
      | some v => v
      | none => dictGet d n dflt := by
  induction hs generalizing d with
  | nil => rfl
  | cons h t ih =>
    rw [List.foldl_cons, ih, lastHeader]
    cases lastHeader t n with
    | some v => rfl
    | none =>
      dsimp only
      rw [dictGet_dictSet]
      by_cases he : h.name = n <;> simp [he]

theorem buildHeaders_lookup (hs : List RawHeader) (n dflt : PyStr) :
    dictGet (buildHeaders hs) n dflt =
      match lastHeader hs n with
      | some v => v
      | none => dflt := by
  rw [buildHeaders, dictGet_foldl]
  cases lastHeader hs n <;> rfl

theorem lastHeader_none (hs : List RawHeader) (n : PyStr)
    (h : ∀ hd ∈ hs, hd.name ≠ n) : lastHeader hs n = none := by
  induction hs with
  | nil => rfl
  | cons hd t ih =>
    rw [lastHeader, ih (fun x hx => h x (by simp [hx]))]
    simp [h hd (by simp)]

theorem findPlainPart_append (pre : List RawPart) (p : RawPart) (post : List RawPart)
    (hpre : ∀ q ∈ pre, q.mimeType ≠ pyStr "text/plain")
    (hp : p.mimeType = pyStr "text/plain") :
    findPlainPart (pre ++ p :: post) = some p := by
  induction pre with
  | nil => simp [findPlainPart, hp]
  | cons q t ih =>
    rw [List.cons_append, findPlainPart, if_neg (hpre q (by simp))]
    exact ih (fun x hx => hpre x (by simp [hx]))

theorem findPlainPart_none (parts : List RawPart)
    (h : ∀ q ∈ parts, q.mimeType ≠ pyStr "text/plain") :
    findPlainPart parts = none := by
  induction parts with
  | nil => rfl
  | cons q t ih =>
    rw [findPlainPart, if_neg (h q (by simp))]
    exact ih (fun x hx => h x (by simp [hx]))

/-! ## Claim theorems. -/

/-- Claim C1: for every raw message with a nested parts list, the normalized
record's body equals the base64url-decoded payload of the first part whose
media type is text/plain (parts scanned in input order, non-plain-text parts
before or after it ignored); for every raw message with no parts list but a
top-level body, the body equals the base64url-decoded top-level body
payload. -/
theorem C1_body_first_plain_part :
    (∀ (m : RawMessage) (pre : List RawPart) (p : RawPart) (post : List RawPart)
        (pb : PartBody) (d : PyStr) (bytes : List Nat),
      m.payload.parts = some (pre ++ p :: post) →
      (∀ q ∈ pre, q.mimeType ≠ pyStr "text/plain") →
      p.mimeType = pyStr "text/plain" →
      p.body = some pb → pb.data = some d → b64urlDecode d = .ok bytes →
      (normalizeMessage m).body = utf8DecodeReplace bytes)
  ∧ (∀ (m : RawMessage) (pb : PartBody) (d : PyStr) (bytes : List Nat),
      m.payload.parts = none → m.payload.body = some pb →
      pb.data = some d → b64urlDecode d = .ok bytes →
      (normalizeMessage m).body = utf8DecodeReplace bytes) := by
  constructor
  · intro m pre p post pb d bytes hparts hpre hp hpb hd hdec
    show extractBody m.payload = _
    rw [extractBody, hparts]
    dsimp only
    rw [findPlainPart_append pre p post hpre hp]
    dsimp only
    rw [decodeBodyData.eq_def, hpb]
    dsimp only
    rw [hd]
    dsimp only
    rw [hdec]
  · intro m pb d bytes hparts hbody hd hdec
    show extractBody m.payload = _
    rw [extractBody, hparts]
    dsimp only
    rw [hbody]
    dsimp only
    rw [decodeBodyData.eq_def]
    dsimp only
    rw [hd]
    dsimp only
    rw [hdec]

/-- Witness for C1: a message whose parts list holds a text/html part before
the text/plain part decodes to that plain part's payload (`aGVsbG8=` ↦
`hello`); a message with no parts list decodes its top-level body payload
(`aGk=` ↦ `hi`). -/
theorem C1_witness :
    (normalizeMessage ⟨pyStr "m1", pyStr "t1", none,
      ⟨[], some [⟨pyStr "text/html", some ⟨some (pyStr "PGI+")⟩⟩,
        ⟨pyStr "text/plain", some ⟨some (pyStr "aGVsbG8=")⟩⟩], none⟩, none⟩).body =
      pyStr "hello" ∧
    (normalizeMessage ⟨pyStr "m2", pyStr "t2", none,
      ⟨[], none, some ⟨some (pyStr "aGk=")⟩⟩, none⟩).body = pyStr "hi" := by
  constructor
  · exact C1_body_first_plain_part.1 _ [⟨pyStr "text/html", some ⟨some (pyStr "PGI+")⟩⟩]
      ⟨pyStr "text/plain", some ⟨some (pyStr "aGVsbG8=")⟩⟩ [] ⟨some (pyStr "aGVsbG8=")⟩
      (pyStr "aGVsbG8=") (pyStr "hello") rfl (by decide) rfl rfl rfl rfl
  · exact C1_body_first_plain_part.2 _ ⟨some (pyStr "aGk=")⟩ (pyStr "aGk=") (pyStr "hi")
      rfl rfl rfl rfl

/-- Claim C2: normalization never raises — a failing body decode yields the
placeholder `[Error decoding body: <cause>]` (in both the parts and the
top-level branch), a failing header decode substitutes a placeholder for
that header's value only while every well-formed header keeps its own value,
and a batch of provider-delivered messages is normalized in full no matter
how malformed the message contents are. -/
theorem C2_decode_errors_never_raise :
    (∀ (m : RawMessage) (parts : List RawPart) (p : RawPart) (c : PyStr),
      m.payload.parts = some parts → findPlainPart parts = some p →
      decodeBodyData p.body = .error c →
      (normalizeMessage m).body = pyStr "[Error decoding body: " ++ c ++ pyStr "]")
  ∧ (∀ (m : RawMessage) (b : PartBody) (c : PyStr),
      m.payload.parts = none → m.payload.body = some b →
      decodeBodyData (some b) = .error c →
      (normalizeMessage m).body = pyStr "[Error decoding body: " ++ c ++ pyStr "]")
  ∧ (∀ v : PyStr, v.all isScalar = false →
      decodeHeaderValue v = pyStr "[Error decoding header: " ++
        pyStr "utf-8 codec cannot encode character: surrogates not allowed" ++ pyStr "]")
  ∧ (∀ v : PyStr, v.all isScalar = true → decodeHeaderValue v = v)
  ∧ (∀ (f : PyStr → RawMessage) (ids : List PyStr),
      processMessages (fun i => .ok (f i)) ids =
        .ok (ids.map fun i => normalizeMessage (f i))) := by
  refine ⟨?_, ?_, ?_, ?_, ?_⟩
  · intro m parts p c hparts hfind hdec
    show extractBody m.payload = _
    rw [extractBody, hparts]
    dsimp only
    rw [hfind]
    dsimp only
    rw [hdec]
    rfl
  · intro m b c hparts hbody hdec
    show extractBody m.payload = _
    rw [extractBody, hparts]
    dsimp only
    rw [hbody]
    dsimp only
    rw [hdec]
    rfl
  · intro v h
    rw [decodeHeaderValue, utf8Encode, if_neg (by simp [h])]
  · exact decodeHeaderValue_scalar
  · intro f ids
    induction ids with
    | nil => rfl
    | cons i t ih =>
      rw [processMessages, ih, List.map_cons]

/-- Witness for C2: a plain part whose payload `a` is not valid base64
yields the placeholder body; a lone-surrogate header value yields the header
placeholder while an ordinary value is kept; a two-message batch over a
malformed message still returns two records. -/
theorem C2_witness :
    (normalizeMessage ⟨pyStr "m3", pyStr "t3", none,
      ⟨[], some [⟨pyStr "text/plain", some ⟨some (pyStr "a")⟩⟩], none⟩, none⟩).body =
      pyStr "[Error decoding body: Invalid padding]" ∧
    decodeHeaderValue [0xD800] = pyStr
      "[Error decoding header: utf-8 codec cannot encode character: surrogates not allowed]" ∧
    decodeHeaderValue (pyStr "Alice") = pyStr "Alice" ∧
    processMessages
      (fun _ => .ok ⟨pyStr "m3", pyStr "t3", none,
        ⟨[], some [⟨pyStr "text/plain", some ⟨some (pyStr "a")⟩⟩], none⟩, none⟩)
      [pyStr "1", pyStr "2"] =
      .ok [normalizeMessage ⟨pyStr "m3", pyStr "t3", none,
        ⟨[], some [⟨pyStr "text/plain", some ⟨some (pyStr "a")⟩⟩], none⟩, none⟩,
        normalizeMessage ⟨pyStr "m3", pyStr "t3", none,
        ⟨[], some [⟨pyStr "text/plain", some ⟨some (pyStr "a")⟩⟩], none⟩, none⟩] := by
  refine ⟨?_, ?_, ?_, ?_⟩
  · exact C2_decode_errors_never_raise.1 _ [⟨pyStr "text/plain", some ⟨some (pyStr "a")⟩⟩]
      ⟨pyStr "text/plain", some ⟨some (pyStr "a")⟩⟩ (pyStr "Invalid padding") rfl rfl rfl
  · exact C2_decode_errors_never_raise.2.2.1 [0xD800] rfl
  · exact C2_decode_errors_never_raise.2.2.2.1 (pyStr "Alice") (by decide)
  · exact C2_decode_errors_never_raise.2.2.2.2 _ [pyStr "1", pyStr "2"]

/-- Claim C7: the normalized has_attachments flag is true exactly when the
raw message's parts list exists and is non-empty. -/
theorem C7_has_attachments_iff (m : RawMessage) :
    (normalizeMessage m).has_attachments = true ↔
      ∃ parts, m.payload.parts = some parts ∧ parts ≠ [] := by
  show (!(m.payload.parts.getD []).isEmpty) = true ↔ _
  cases hp : m.payload.parts with
  | none => simp
  | some parts => cases parts <;> simp

/-- Claim C9: a message with a non-empty parts list none of which is
text/plain gets the empty string as body — neither the top-level payload
nor a placeholder. -/
theorem C9_no_plain_part_empty_body (m : RawMessage) (parts : List RawPart)
    (hp : m.payload.parts = some parts) (_hne : parts ≠ [])
    (hall : ∀ q ∈ parts, q.mimeType ≠ pyStr "text/plain") :
    (normalizeMessage m).body = [] := by
  show extractBody m.payload = []
  rw [extractBody, hp]
  dsimp only
  rw [findPlainPart_none parts hall]

/-- Witness for C9: a message whose only parts are text/html and image/png
(and whose top-level body payload would decode to `hi`) has the empty
body. -/
theorem C9_witness :
    (normalizeMessage ⟨pyStr "m4", pyStr "t4", none,
      ⟨[], some [⟨pyStr "text/html", some ⟨some (pyStr "PGI+")⟩⟩,
        ⟨pyStr "image/png", none⟩], some ⟨some (pyStr "aGk=")⟩⟩, none⟩).body = [] :=
  C9_no_plain_part_empty_body _
    [⟨pyStr "text/html", some ⟨some (pyStr "PGI+")⟩⟩, ⟨pyStr "image/png", none⟩]
    rfl (by decide) (by decide)

/-- Claim C10: header promotion matches names exactly and case-sensitively —
with no header named precisely `From` the record's from field defaults to
the empty string — and the header dict holds, for each exact name, the
decoded value of the last raw header bearing it (later duplicates overwrite
earlier ones). -/
theorem C10_header_promotion_exact_match :
    (∀ m : RawMessage, (∀ hd ∈ m.payload.headers, hd.name ≠ pyStr "From") →
      (normalizeMessage m).from_ = [])
  ∧ (∀ (hs : List RawHeader) (n dflt : PyStr),
      dictGet (buildHeaders hs) n dflt =
        match lastHeader hs n with
        | some v => v
        | none => dflt) := by
  constructor
  · intro m h
    show dictGet (buildHeaders m.payload.headers) (pyStr "From") [] = []
    rw [buildHeaders_lookup, lastHeader_none _ _ h]
  · exact buildHeaders_lookup

/-- Witness for C10: headers named `from` and `FROM` are not promoted (the
record's from field is empty), and of two headers both named exactly `From`
the later one's value wins. -/
theorem C10_witness :
    (normalizeMessage ⟨pyStr "m5", pyStr "t5", none,
      ⟨[⟨pyStr "from", pyStr "x"⟩, ⟨pyStr "FROM", pyStr "y"⟩], none, none⟩, none⟩).from_ = [] ∧
    (normalizeMessage ⟨pyStr "m6", pyStr "t6", none,
      ⟨[⟨pyStr "From", pyStr "first"⟩, ⟨pyStr "From", pyStr "second"⟩], none, none⟩,
      none⟩).from_ = pyStr "second" := by
  constructor
  · exact C10_header_promotion_exact_match.1 _ (by decide)
  · rw [show (normalizeMessage ⟨pyStr "m6", pyStr "t6", none,
      ⟨[⟨pyStr "From", pyStr "first"⟩, ⟨pyStr "From", pyStr "second"⟩], none, none⟩,
      none⟩).from_ = dictGet (buildHeaders [⟨pyStr "From", pyStr "first"⟩,
        ⟨pyStr "From", pyStr "second"⟩]) (pyStr "From") [] from rfl,
      C10_header_promotion_exact_match.2]
    rfl

/-- Counterexample to C3: with no persisted credential, `get_calendar_service`
triggers zero interactive flows (the claim demands exactly one for credential
acquisition with no persisted credential) — it instead persists the absent
credential (`pickle.dump(None)`) and proceeds. -/
theorem C3_counterexample :
    (get_calendar_service none (fun c => Except.ok c)).2.flowCalls = 0 ∧
    (get_calendar_service none (fun c => Except.ok c)).2.persists = [none] :=
  ⟨rfl, rfl⟩

/-- Claim C3 (amended): the four-step algorithm holds for the Gmail service —
an expired stored credential with a refresh token is refreshed without any
interactive flow and re-persisted; with no stored credential (or an expired
one without refresh token) the interactive flow runs exactly once; a
credential is persisted only after the refresh or flow succeeds.  The
calendar service shares the refresh branch but never triggers an interactive
flow: with no stored credential it persists the absent credential as is and
proceeds, and with a stored credential that is invalid but not
expired-with-refresh-token it re-persists that credential unchanged. -/
theorem C3_amended_credential_flow :
    (∀ (c c2 : Credential) (rf : Credential → Except PyStr Credential)
        (fr : Except PyStr Credential),
      c.expired = true → c.refreshToken = true → rf c = .ok c2 →
      get_gmail_service (some c) rf fr = (.ok c2, ⟨1, 0, [some c2]⟩))
  ∧ (∀ (rf : Credential → Except PyStr Credential) (fr : Except PyStr Credential),
      (get_gmail_service none rf fr).2.flowCalls = 1 ∧
      (get_gmail_service none rf fr).2.refreshCalls = 0)
  ∧ (∀ (rf : Credential → Except PyStr Credential) (c2 : Credential),
      get_gmail_service none rf (.ok c2) = (.ok c2, ⟨0, 1, [some c2]⟩))
  ∧ (∀ (c : Credential) (rf : Credential → Except PyStr Credential)
        (fr : Except PyStr Credential),
      c.expired = true → c.refreshToken = false →
      (get_gmail_service (some c) rf fr).2.flowCalls = 1)
  ∧ (∀ (c : Credential) (rf : Credential → Except PyStr Credential)
        (fr : Except PyStr Credential) (e : PyStr),
      c.expired = true → c.refreshToken = true → rf c = .error e →
      get_gmail_service (some c) rf fr = (.error e, ⟨1, 0, []⟩))
  ∧ (∀ (rf : Credential → Except PyStr Credential) (e : PyStr),
      get_gmail_service none rf (.error e) = (.error e, ⟨0, 1, []⟩))
  ∧ (∀ (c c2 : Credential) (rf : Credential → Except PyStr Credential),
      c.expired = true → c.refreshToken = true → rf c = .ok c2 →
      get_calendar_service (some c) rf = (.ok (some c2), ⟨1, 0, [some c2]⟩))
  ∧ (∀ (stored : Option Credential) (rf : Credential → Except PyStr Credential),
      (get_calendar_service stored rf).2.flowCalls = 0)
  ∧ (∀ (rf : Credential → Except PyStr Credential),
      get_calendar_service none rf = (.ok none, ⟨0, 0, [none]⟩))
  ∧ (∀ (c : Credential) (rf : Credential → Except PyStr Credential),
      c.valid = false → (c.expired && c.refreshToken) = false →
      get_calendar_service (some c) rf = (.ok (some c), ⟨0, 0, [some c]⟩)) := by
  refine ⟨?_, ?_, ?_, ?_, ?_, ?_, ?_, ?_, ?_, ?_⟩
  · intro c c2 rf fr hexp hrt hrf
    have hv : c.valid = false := by simp [Credential.valid, hexp]
    simp [get_gmail_service, hv, hexp, hrt, hrf]
  · intro rf fr
    cases fr <;> exact ⟨rfl, rfl⟩
  · intro rf c2
    rfl
  · intro c rf fr hexp hrt
    have hv : c.valid = false := by simp [Credential.valid, hexp]
    cases fr <;> simp [get_gmail_service, hv, hexp, hrt]
  · intro c rf fr e hexp hrt hrf
    have hv : c.valid = false := by simp [Credential.valid, hexp]
    simp [get_gmail_service, hv, hexp, hrt, hrf]
  · intro rf e
    rfl
  · intro c c2 rf hexp hrt hrf
    have hv : c.valid = false := by simp [Credential.valid, hexp]
    simp [get_calendar_service, hv, hexp, hrt, hrf]
  · intro stored rf
    match stored with
    | none => rfl
    | some c =>
      by_cases hv : c.valid
      · simp [get_calendar_service, hv]
      · simp only [get_calendar_service, Bool.not_eq_true] at *
        rw [if_neg (by simp [hv])]
        by_cases hb : c.expired && c.refreshToken
        · rw [if_pos hb]
          cases rf c <;> rfl
        · rw [if_neg hb]
  · intro rf
    rfl
  · intro c rf hv hb
    rw [get_calendar_service.eq_def]
    dsimp only
    rw [if_neg (by simp [hv]), if_neg (by simp [hb])]

/-- Witness for the amended C3: a concrete expired credential carrying a
refresh token is refreshed and re-persisted, with zero interactive flows, on
both service paths; and a concrete invalid calendar credential without a
refresh token (no access token, not expired) is re-persisted unchanged with
zero refreshes and zero interactive flows. -/
theorem C3_witness :
    get_gmail_service (some ⟨true, true, true⟩)
        (fun c => .ok ⟨true, false, c.refreshToken⟩) (.ok ⟨true, false, false⟩) =
      (.ok ⟨true, false, true⟩, ⟨1, 0, [some ⟨true, false, true⟩]⟩) ∧
    get_calendar_service (some ⟨true, true, true⟩)
        (fun c => .ok ⟨true, false, c.refreshToken⟩) =
      (.ok (some ⟨true, false, true⟩), ⟨1, 0, [some ⟨true, false, true⟩]⟩) ∧
    get_calendar_service (some ⟨false, false, false⟩)
        (fun c => .ok ⟨true, false, c.refreshToken⟩) =
      (.ok (some ⟨false, false, false⟩), ⟨0, 0, [some ⟨false, false, false⟩]⟩) :=
  ⟨C3_amended_credential_flow.1 ⟨true, true, true⟩ ⟨true, false, true⟩ _ _ rfl rfl rfl,
   C3_amended_credential_flow.2.2.2.2.2.2.1 ⟨true, true, true⟩ ⟨true, false, true⟩ _
     rfl rfl rfl,
   C3_amended_credential_flow.2.2.2.2.2.2.2.2.2 ⟨false, false, false⟩ _ rfl rfl⟩

theorem toolGuard_bind {α β : Type} (x : Except PyStr α) (f : α → Except PyStr β) :
    toolGuard (x >>= f) =
      match x with
      | .error e => ToolResult.error e
      | .ok a => toolGuard (f a) := by
  cases x <;> rfl

/-- Claim C4: every tool operation equals its exception-propagating pipeline
with the single outer guard applied — any exception raised by credential
acquisition, a provider call, composition, or a per-message step that is not
suppressed per-record surfaces as the `{'error': message}` value of
`toolGuard` (which converts every raised error into a returned value, so no
tool result is ever an exception). -/
theorem C4_error_contract :
    (∀ (svc : Except PyStr MailProvider) (mr : Nat),
      get_inbox_emails svc mr = toolGuard (get_inbox_emails_unguarded svc mr))
  ∧ (∀ (svc : Except PyStr MailProvider) (guess : PyStr → Option PyStr × Option PyStr)
        (fs : PyStr → Option (List Nat)) (boundary to_ subject body : PyStr)
        (atts : Option (List PyStr)),
      send_email svc guess fs boundary to_ subject body atts =
        toolGuard (send_email_unguarded svc guess fs boundary to_ subject body atts))
  ∧ (∀ (svc : Except PyStr MailProvider) (q : PyStr) (mr : Nat),
      search_emails svc q mr = toolGuard (search_emails_unguarded svc q mr))
  ∧ (∀ (svc : Except PyStr MailProvider) (mr : Nat),
      get_sent_emails svc mr = toolGuard (get_sent_emails_unguarded svc mr))
  ∧ (∀ (svc : Except PyStr CalendarProvider) (tmin tmax : Option PyStr) (mr : Nat),
      get_calendar_events svc tmin tmax mr =
        toolGuard (get_calendar_events_unguarded svc tmin tmax mr))
  ∧ (∀ (svc : Except PyStr CalendarProvider) (token summary start end_ : PyStr)
        (atts : Option (List PyStr)) (descr : PyStr),
      create_calendar_event svc token summary start end_ atts descr =
        toolGuard (create_calendar_event_unguarded svc token summary start end_ atts descr))
  ∧ (∀ (α : Type) (x : Except PyStr α) (e : PyStr),
      toolGuard x = ToolResult.error e ↔ x = .error e)
  ∧ (∀ (α : Type) (x : Except PyStr α) (v : α),
      toolGuard x = ToolResult.ok v ↔ x = .ok v) := by
  refine ⟨?_, ?_, ?_, ?_, ?_, ?_, ?_, ?_⟩
  · intro svc mr
    rw [get_inbox_emails.eq_def, get_inbox_emails_unguarded, toolGuard_bind]
    cases svc with
    | error e => rfl
    | ok p =>
      dsimp only
      rw [toolGuard_bind]
      cases p.listInbox mr with
      | error e => rfl
      | ok ids =>
        dsimp only
        cases processMessages p.getMessage ids <;> rfl
  · intro svc guess fs boundary to_ subject body atts
    rw [send_email.eq_def, send_email_unguarded, toolGuard_bind]
    cases svc with
    | error e => rfl
    | ok p =>
      dsimp only
      rw [toolGuard_bind]
      cases create_message_with_attachments guess fs boundary to_ subject body atts with
      | error e => rfl
      | ok env =>
        dsimp only
        rw [toolGuard_bind]
        cases p.sendMessage env <;> rfl
  · intro svc q mr
    rw [search_emails.eq_def, search_emails_unguarded, toolGuard_bind]
    cases svc with
    | error e => rfl
    | ok p =>
      dsimp only
      rw [toolGuard_bind]
      cases p.searchList q mr with
      | error e => rfl
      | ok ids =>
        dsimp only
        cases processMessages p.getMessage ids <;> rfl
  · intro svc mr
    rw [get_sent_emails.eq_def, get_sent_emails_unguarded, toolGuard_bind]
    cases svc with
    | error e => rfl
    | ok p =>
      dsimp only
      rw [toolGuard_bind]
      cases p.listSent mr with
      | error e => rfl
      | ok ids =>
        dsimp only
        cases processSentMessages p.getMessage ids <;> rfl
  · intro svc tmin tmax mr
    rw [get_calendar_events.eq_def, get_calendar_events_unguarded, toolGuard_bind]
    cases svc with
    | error e => rfl
    | ok p =>
      dsimp only
      rw [toolGuard_bind]
      cases p.listEvents tmin tmax mr <;> rfl
  · intro svc token summary start end_ atts descr
    rw [create_calendar_event.eq_def, create_calendar_event_unguarded, toolGuard_bind]
    cases svc with
    | error e => rfl
    | ok p =>
      dsimp only
      rw [toolGuard_bind]
      cases p.insertEvent ⟨summary, descr, start, end_, atts.getD [], pyStr "mcp-" ++ token⟩ <;>
        rfl
  · intro α x e
    cases x <;> simp [toolGuard]
  · intro α x v
    cases x <;> simp [toolGuard]

/-! ## Helper lemmas: line splitting and the serialized header block. -/

theorem splitLines_append (a b : PyStr) (h : (10 : Nat) ∉ a) :
    splitLines (a ++ 10 :: b) = a :: splitLines b := by
  induction a with
  | nil => simp [splitLines]
  | cons x t ih =>
    have hx : ¬ x = 10 := fun hc => h (by simp [hc])
    rw [List.cons_append, splitLines, if_neg hx, ih (fun hc => h (by simp [hc]))]

theorem takeWhile_append_all (p : Nat → Bool) (a b : PyStr) (h : ∀ x ∈ a, p x = true) :
    (a ++ b).takeWhile p = a ++ b.takeWhile p := by
  induction a with
  | nil => simp
  | cons x t ih =>
    rw [List.cons_append, List.takeWhile_cons, h x (by simp), if_pos rfl,
      ih (fun y hy => h y (by simp [hy])), List.cons_append]

theorem parseHeaderLine_prefix (pre v : PyStr) (h : (58 : Nat) ∉ pre) :
    parseHeaderLine (pre ++ 58 :: 32 :: v) = some (pre, v) := by
  rw [parseHeaderLine]
  have ht : (pre ++ 58 :: 32 :: v).takeWhile (fun c => c != 58) = pre := by
    rw [takeWhile_append_all _ pre _ (fun x hx => by
      simp only [bne_iff_ne, ne_eq, decide_eq_true_eq]
      exact fun hc => h (hc ▸ hx))]
    rw [List.takeWhile_cons]
    simp
  rw [ht, List.drop_left]

theorem takeWhile_lines_cons (a : PyStr) (r : List PyStr) (h : a ≠ []) :
    (a :: r).takeWhile (fun l => !l.isEmpty) = a :: r.takeWhile (fun l => !l.isEmpty) := by
  rw [List.takeWhile_cons]
  simp [h]

theorem takeWhile_lines_nil (r : List PyStr) :
    (([] : PyStr) :: r).takeWhile (fun l => !l.isEmpty) = [] := by
  simp [List.takeWhile_cons]

theorem splitLines_newline_cons (b : PyStr) : splitLines (10 :: b) = [] :: splitLines b := by
  rw [splitLines]
  simp

theorem append_ne_nil_left {α : Type} (s t : List α) (h : s ≠ []) : s ++ t ≠ [] := by
  cases s <;> simp_all

theorem wireHeaders_serializeMime (m : MimeMessage)
    (hb : (10 : Nat) ∉ m.boundary) (ht : (10 : Nat) ∉ m.to_)
    (hf : (10 : Nat) ∉ m.from_) (hs : (10 : Nat) ∉ m.subject) :
    wireHeaders (serializeMime m) =
      [(pyStr "Content-Type",
          pyStr "multipart/mixed; boundary=" ++ (dq ++ (m.boundary ++ dq))),
       (pyStr "MIME-Version", pyStr "1.0"),
       (pyStr "to", m.to_),
       (pyStr "from", m.from_),
       (pyStr "subject", m.subject)] := by
  rw [wireHeaders, serializeMime]
  rw [splitLines_append _ _ (by
    simp only [List.mem_append, not_or]
    exact ⟨⟨⟨by decide, by decide⟩, hb⟩, by decide⟩)]
  rw [splitLines_append _ _ (by decide)]
  rw [splitLines_append _ _ (by
    simp only [List.mem_append, not_or]
    exact ⟨by decide, ht⟩)]
  rw [splitLines_append _ _ (by
    simp only [List.mem_append, not_or]
    exact ⟨by decide, hf⟩)]
  rw [splitLines_append _ _ (by
    simp only [List.mem_append, not_or]
    exact ⟨by decide, hs⟩)]
  rw [splitLines_newline_cons]
  rw [takeWhile_lines_cons _ _ (by simp [dq])]
  rw [takeWhile_lines_cons _ _ (by decide)]
  rw [takeWhile_lines_cons _ _ (append_ne_nil_left _ _ (by decide))]
  rw [takeWhile_lines_cons _ _ (append_ne_nil_left _ _ (by decide))]
  rw [takeWhile_lines_cons _ _ (append_ne_nil_left _ _ (by decide))]
  rw [takeWhile_lines_nil]
  rw [show pyStr "Content-Type: multipart/mixed; boundary=" ++ dq ++ m.boundary ++ dq =
      pyStr "Content-Type" ++ 58 :: 32 ::
        (pyStr "multipart/mixed; boundary=" ++ (dq ++ (m.boundary ++ dq))) by
    rw [show pyStr "Content-Type: multipart/mixed; boundary=" =
      pyStr "Content-Type" ++ 58 :: 32 :: pyStr "multipart/mixed; boundary=" by decide]
    simp [List.append_assoc]]
  rw [show pyStr "to: " ++ m.to_ = pyStr "to" ++ 58 :: 32 :: m.to_ by
    rw [show pyStr "to: " = pyStr "to" ++ [58, 32] by decide]
    simp]
  rw [show pyStr "from: " ++ m.from_ = pyStr "from" ++ 58 :: 32 :: m.from_ by
    rw [show pyStr "from: " = pyStr "from" ++ [58, 32] by decide]
    simp]
  rw [show pyStr "subject: " ++ m.subject = pyStr "subject" ++ 58 :: 32 :: m.subject by
    rw [show pyStr "subject: " = pyStr "subject" ++ [58, 32] by decide]
    simp]
  rw [List.filterMap_cons, parseHeaderLine_prefix _ _ (by decide)]
  rw [List.filterMap_cons,
    show parseHeaderLine (pyStr "MIME-Version: 1.0") =
      some (pyStr "MIME-Version", pyStr "1.0") by rfl]
  rw [List.filterMap_cons, parseHeaderLine_prefix _ _ (by decide)]
  rw [List.filterMap_cons, parseHeaderLine_prefix _ _ (by decide)]
  rw [List.filterMap_cons, parseHeaderLine_prefix _ _ (by decide)]
  rfl

theorem utf8Encode_ok_elim (s : PyStr) (bs : List Nat) (h : utf8Encode s = .ok bs) :
    s.all isScalar = true ∧ bs = utf8Bytes s := by
  rw [utf8Encode] at h
  by_cases ha : s.all isScalar
  · rw [if_pos ha] at h
    exact ⟨ha, (Except.ok.injEq _ _ ▸ h).symm⟩
  · rw [if_neg ha] at h
    exact absurd h (by simp)

theorem ascii_lt_256 (s : PyStr) (h : s.all (fun c => c < 128) = true) :
    ∀ x ∈ s, x < 256 := by
  simp only [List.all_eq_true, decide_eq_true_eq] at h
  intro x hx
  exact lt_trans (h x hx) (by omega)

theorem encodebytes_ascii (bs : List Nat) (h : ∀ x ∈ bs, x < 256) :
    (encodebytes bs).all (fun c => c < 128) = true := by
  rw [encodebytes, wrap76_all _ (by simp)]
  exact encode_all_ascii b64StdChar b64StdChar_good bs h

theorem serializeTextPart_ascii (tp : MimeTextPart)
    (h1 : tp.charsetUtf8 = false → tp.bodyText.all (fun c => c < 128) = true)
    (h2 : tp.charsetUtf8 = true → tp.bodyText.all isScalar = true) :
    (serializeTextPart tp).all (fun c => c < 128) = true := by
  rw [serializeTextPart]
  cases hc : tp.charsetUtf8 with
  | false =>
    rw [if_neg (by simp [hc])]
    simp only [List.all_append, Bool.and_eq_true]
    exact ⟨by decide, h1 hc⟩
  | true =>
    rw [if_pos (by simp [hc])]
    simp only [List.all_append, Bool.and_eq_true]
    exact ⟨by decide, encodebytes_ascii _ (utf8Bytes_lt_256 tp.bodyText (h2 hc))⟩

theorem serializeMime_ascii (m : MimeMessage)
    (hb : m.boundary.all (fun c => c < 128) = true)
    (ht : m.to_.all (fun c => c < 128) = true)
    (hf : m.from_.all (fun c => c < 128) = true)
    (hs : m.subject.all (fun c => c < 128) = true)
    (htp : (serializeTextPart m.textPart).all (fun c => c < 128) = true)
    (hatts : m.attachments = []) :
    (serializeMime m).all (fun c => c < 128) = true := by
  rw [serializeMime, hatts]
  simp only [List.foldr_nil, List.all_append, List.all_cons, Bool.and_eq_true,
    decide_eq_true_eq]
  repeat' constructor
  all_goals first
    | exact hb
    | exact ht
    | exact hf
    | exact hs
    | exact htp

set_option maxRecDepth 100000 in
/-- Counterexample to C5: a concrete compose call succeeds and its raw
envelope field contains the padding character `=` (code point 61) —
`base64.urlsafe_b64encode` pads, so the claim that the encoded string never
contains `=` is false. -/
theorem C5_counterexample :
    c5Envelope.map (fun env => env.raw.contains 61) = .ok true := rfl

/-- Claim C5 (amended): the envelope is the serialized MIME container
base64url-encoded with `=` padding — the padding character appears in the
encoded string exactly when the serialized byte length is not a multiple of
three (and the encoding is invertible). -/
theorem C5_amended_padded_encoding :
    (∀ bs : List Nat, (∀ x ∈ bs, x < 256) →
      (61 ∈ b64urlEncode bs ↔ bs.length % 3 ≠ 0) ∧
        b64urlDecode (b64urlEncode bs) = .ok bs)
  ∧ (∀ (guess : PyStr → Option PyStr × Option PyStr) (fs : PyStr → Option (List Nat))
        (boundary to_ subject body : PyStr) (atts : Option (List PyStr))
        (m : MimeMessage) (bs : List Nat),
      buildMime guess fs boundary to_ subject body atts = .ok m →
      utf8Encode (serializeMime m) = .ok bs →
      create_message_with_attachments guess fs boundary to_ subject body atts =
        .ok ⟨b64urlEncode bs⟩ ∧ (∀ x ∈ bs, x < 256)) := by
  constructor
  · intro bs h
    exact ⟨b64urlEncode_mem61 bs h, b64url_roundtrip bs h⟩
  · intro guess fs boundary to_ subject body atts m bs hm henc
    constructor
    · rw [create_message_with_attachments, hm]
      dsimp only
      rw [henc]
    · obtain ⟨hsc, hbs⟩ := utf8Encode_ok_elim _ _ henc
      rw [hbs]
      exact utf8Bytes_lt_256 _ hsc

set_option maxRecDepth 100000 in
/-- Witness for the amended C5: a concrete compose call produces exactly the
base64url encoding of its serialized container, whose padding presence is
equivalent to the byte length not being a multiple of three (here the length
is 201, so the encoding carries no padding for this input). -/
theorem C5_witness :
    create_message_with_attachments (fun _ => (none, none)) (fun _ => none) (pyStr "b")
        (pyStr "a@x") (pyStr "s") (pyStr "hej") none =
      .ok ⟨b64urlEncode (serializeMime ⟨pyStr "a@x", pyStr "me", pyStr "s", pyStr "b",
        ⟨false, pyStr "hej"⟩, []⟩)⟩ ∧
    (61 ∈ b64urlEncode (serializeMime ⟨pyStr "a@x", pyStr "me", pyStr "s", pyStr "b",
        ⟨false, pyStr "hej"⟩, []⟩) ↔
      (serializeMime ⟨pyStr "a@x", pyStr "me", pyStr "s", pyStr "b",
        ⟨false, pyStr "hej"⟩, []⟩).length % 3 ≠ 0) := by
  have h2 := C5_amended_padded_encoding.2 (fun _ => (none, none)) (fun _ => none)
    (pyStr "b") (pyStr "a@x") (pyStr "s") (pyStr "hej") none
    ⟨pyStr "a@x", pyStr "me", pyStr "s", pyStr "b", ⟨false, pyStr "hej"⟩, []⟩
    (serializeMime ⟨pyStr "a@x", pyStr "me", pyStr "s", pyStr "b", ⟨false, pyStr "hej"⟩, []⟩)
    rfl rfl
  exact ⟨h2.1, (C5_amended_padded_encoding.1 _ h2.2).1⟩

/-- Claim C6 (amended): for header-safe inputs — recipient and subject made
of ASCII characters with no embedded newline (values the compat32 generator
emits verbatim on one line), and a body of encodable text — composing with
no attachments and base64url-decoding the raw envelope field recovers the
serialized MIME document: its `to` and `subject` headers equal the inputs
and its text part content equals the body verbatim.  A recipient or subject
containing a newline is excluded: such a value splits into additional
wire lines, so the recovered header is only the prefix before the newline
(see the counterexample). -/
theorem C6_amended_roundtrip (guess : PyStr → Option PyStr × Option PyStr)
    (fs : PyStr → Option (List Nat)) (boundary to_ subject body : PyStr)
    (hb : ∀ c ∈ boundary, c < 128 ∧ c ≠ 10)
    (ht : ∀ c ∈ to_, c < 128 ∧ c ≠ 10)
    (hs : ∀ c ∈ subject, c < 128 ∧ c ≠ 10)
    (hbody : body.all isScalar = true) :
    ∃ m : MimeMessage, ∃ bs : List Nat,
      buildMime guess fs boundary to_ subject body none = .ok m ∧
      create_message_with_attachments guess fs boundary to_ subject body none =
        .ok ⟨b64urlEncode bs⟩ ∧
      b64urlDecode (b64urlEncode bs) = .ok bs ∧
      utf8DecodeReplace bs = serializeMime m ∧
      headerLookup (wireHeaders (utf8DecodeReplace bs)) (pyStr "to") = some to_ ∧
      headerLookup (wireHeaders (utf8DecodeReplace bs)) (pyStr "subject") = some subject ∧
      textPartContent m.textPart = body := by
  have hball : boundary.all (fun c => c < 128) = true := by
    simp only [List.all_eq_true, decide_eq_true_eq]
    exact fun c hc => (hb c hc).1
  have htall : to_.all (fun c => c < 128) = true := by
    simp only [List.all_eq_true, decide_eq_true_eq]
    exact fun c hc => (ht c hc).1
  have hsall : subject.all (fun c => c < 128) = true := by
    simp only [List.all_eq_true, decide_eq_true_eq]
    exact fun c hc => (hs c hc).1
  have hb10 : (10 : Nat) ∉ boundary := fun hm => (hb 10 hm).2 rfl
  have ht10 : (10 : Nat) ∉ to_ := fun hm => (ht 10 hm).2 rfl
  have hs10 : (10 : Nat) ∉ subject := fun hm => (hs 10 hm).2 rfl
  have hcore : ∀ tp : MimeTextPart,
      mimeTextMake body = .ok tp →
      (serializeTextPart tp).all (fun c => c < 128) = true →
      textPartContent tp = body →
      ∃ m : MimeMessage, ∃ bs : List Nat,
        buildMime guess fs boundary to_ subject body none = .ok m ∧
        create_message_with_attachments guess fs boundary to_ subject body none =
          .ok ⟨b64urlEncode bs⟩ ∧
        b64urlDecode (b64urlEncode bs) = .ok bs ∧
        utf8DecodeReplace bs = serializeMime m ∧
        headerLookup (wireHeaders (utf8DecodeReplace bs)) (pyStr "to") = some to_ ∧
        headerLookup (wireHeaders (utf8DecodeReplace bs)) (pyStr "subject") = some subject ∧
        textPartContent m.textPart = body := by
    intro tp htp htpascii htpcontent
    set m : MimeMessage := ⟨to_, pyStr "me", subject, boundary, tp, []⟩ with hmdef
    have hfme : (pyStr "me").all (fun c => c < 128) = true := by decide
    have hfme10 : (10 : Nat) ∉ pyStr "me" := by decide
    have hm : buildMime guess fs boundary to_ subject body none = .ok m := by
      rw [buildMime, htp]
      rfl
    have hall : (serializeMime m).all (fun c => c < 128) = true :=
      serializeMime_ascii m hball htall hfme hsall htpascii rfl
    have henc : utf8Encode (serializeMime m) = .ok (serializeMime m) := by
      rw [utf8Encode, if_pos (all_isScalar_of_ascii _ hall), utf8Bytes_ascii _ hall]
    have hdr : utf8DecodeReplace (serializeMime m) = serializeMime m :=
      utf8DecodeReplace_ascii _ hall
    refine ⟨m, serializeMime m, hm, ?_, ?_, hdr, ?_, ?_, htpcontent⟩
    · rw [create_message_with_attachments, hm]
      dsimp only
      rw [henc]
    · exact b64url_roundtrip _ (ascii_lt_256 _ hall)
    · rw [hdr, wireHeaders_serializeMime m hb10 ht10 hfme10 hs10]
      rw [headerLookup, if_neg (by decide), headerLookup, if_neg (by decide),
        headerLookup, if_pos rfl]
    · rw [hdr, wireHeaders_serializeMime m hb10 ht10 hfme10 hs10]
      rw [headerLookup, if_neg (by decide), headerLookup, if_neg (by decide),
        headerLookup, if_neg (by decide), headerLookup, if_neg (by decide),
        headerLookup, if_pos rfl]
  by_cases hasc : body.all (fun c => c < 128) = true
  · refine hcore ⟨false, body⟩ ?_ ?_ ?_
    · rw [mimeTextMake, if_pos hasc]
    · exact serializeTextPart_ascii _ (fun _ => hasc) (fun h => absurd h (by simp))
    · rfl
  · refine hcore ⟨true, body⟩ ?_ ?_ ?_
    · rw [mimeTextMake, if_neg hasc, if_pos hbody]
    · exact serializeTextPart_ascii _ (fun h => absurd h (by simp)) (fun _ => hbody)
    · rw [textPartContent, if_pos rfl,
        show mimeTextPayload ⟨true, body⟩ = encodebytes (utf8Bytes body) from rfl,
        encodebytes_roundtrip _ (utf8Bytes_lt_256 body hbody)]
      exact utf8_roundtrip body hbody

set_option maxRecDepth 200000 in
/-- Counterexample to C6: composing with a recipient value that embeds a
newline succeeds, but the composed wire splits that value across two lines,
so the `to` header recovered from the base64url-decoded envelope is only the
prefix `a@x` — not the input recipient.  (For a newline-injected line that
itself looks like a header, the email generator raises instead; either way
the claim's universally quantified round-trip fails.) -/
theorem C6_counterexample :
    decodedToHeader c6Envelope = some (some (pyStr "a@x")) ∧
    ¬ (pyStr "a@x" = pyStr "a@x" ++ 10 :: pyStr "evil no colon") :=
  ⟨rfl, by decide⟩

/-- Witness for the amended C6: concrete header-safe inputs (with a
non-ASCII body exercising the utf-8/base64 text-part branch) compose into an
envelope whose decoded wire carries the inputs verbatim. -/
theorem C6_witness :
    ∃ m : MimeMessage, ∃ bs : List Nat,
      buildMime (fun _ => (none, none)) (fun _ => none) (pyStr "b") (pyStr "bob@x")
        (pyStr "hey") (pyStr "héllo") none = .ok m ∧
      create_message_with_attachments (fun _ => (none, none)) (fun _ => none) (pyStr "b")
        (pyStr "bob@x") (pyStr "hey") (pyStr "héllo") none = .ok ⟨b64urlEncode bs⟩ ∧
      b64urlDecode (b64urlEncode bs) = .ok bs ∧
      utf8DecodeReplace bs = serializeMime m ∧
      headerLookup (wireHeaders (utf8DecodeReplace bs)) (pyStr "to") = some (pyStr "bob@x") ∧
      headerLookup (wireHeaders (utf8DecodeReplace bs)) (pyStr "subject") =
        some (pyStr "hey") ∧
      textPartContent m.textPart = pyStr "héllo" :=
  C6_amended_roundtrip (fun _ => (none, none)) (fun _ => none) (pyStr "b") (pyStr "bob@x")
    (pyStr "hey") (pyStr "héllo") (by decide) (by decide) (by decide) (by decide)

/-! ## Helper lemmas: attachment building. -/

theorem takeWhile_slash_length_lt (s : PyStr) (h : (47 : Nat) ∈ s) :
    (s.takeWhile (fun c => c != 47)).length < s.length := by
  induction s with
  | nil => simp at h
  | cons x t ih =>
    by_cases hx : x = 47
    · subst hx
      rw [List.takeWhile_cons]
      simp
    · rw [List.takeWhile_cons, if_pos (by simp [hx])]
      have hmem : (47 : Nat) ∈ t := by
        rcases List.mem_cons.mp h with h1 | h1
        · exact absurd h1.symm hx
        · exact h1
      simpa using ih hmem

theorem splitSlash1_of_mem (s : PyStr) (h : (47 : Nat) ∈ s) :
    splitSlash1 s =
      .ok (s.takeWhile (fun c => c != 47),
        s.drop ((s.takeWhile (fun c => c != 47)).length + 1)) := by
  rw [splitSlash1, if_neg (Nat.ne_of_lt (takeWhile_slash_length_lt s h))]

theorem mimeTextMake_ok (body : PyStr) (h : body.all isScalar = true) :
    ∃ tp : MimeTextPart, mimeTextMake body = .ok tp := by
  by_cases ha : body.all (fun c => c < 128) = true
  · exact ⟨⟨false, body⟩, by rw [mimeTextMake, if_pos ha]⟩
  · exact ⟨⟨true, body⟩, by rw [mimeTextMake, if_neg ha, if_pos h]⟩

theorem buildAttachments_error_of_unreadable (guess : PyStr → Option PyStr × Option PyStr)
    (fs : PyStr → Option (List Nat)) (paths : List PyStr)
    (h : ∃ p ∈ paths, fs p = none) :
    ∃ e, buildAttachments guess fs paths = .error e := by
  induction paths with
  | nil => simp at h
  | cons q rest ih =>
    rw [buildAttachments]
    cases hsp : splitSlash1 (guessContentType guess q) with
    | error e => exact ⟨e, rfl⟩
    | ok mtst =>
      obtain ⟨mt, st⟩ := mtst
      cases hq : fs q with
      | none => exact ⟨pyStr "IOError: cannot read " ++ q, rfl⟩
      | some bytes =>
        obtain ⟨p, hp, hpn⟩ := h
        rcases List.mem_cons.mp hp with rfl | hp2
        · rw [hq] at hpn
          exact absurd hpn (by simp)
        · obtain ⟨e, he⟩ := ih ⟨p, hp2, hpn⟩
          rw [he]
          exact ⟨e, rfl⟩

theorem buildAttachments_first_unreadable (guess : PyStr → Option PyStr × Option PyStr)
    (fs : PyStr → Option (List Nat)) (pre : List PyStr) (p : PyStr) (post : List PyStr)
    (hg : ∀ q, (47 : Nat) ∈ guessContentType guess q)
    (hpre : ∀ q ∈ pre, (fs q).isSome = true) (hp : fs p = none) :
    buildAttachments guess fs (pre ++ p :: post) =
      .error (pyStr "IOError: cannot read " ++ p) := by
  induction pre with
  | nil =>
    rw [List.nil_append, buildAttachments, splitSlash1_of_mem _ (hg p), hp]
  | cons q rest ih =>
    rw [List.cons_append, buildAttachments, splitSlash1_of_mem _ (hg q)]
    obtain ⟨bytes, hby⟩ := Option.isSome_iff_exists.mp (hpre q (by simp))
    rw [hby, ih (fun x hx => hpre x (by simp [hx]))]

theorem buildAttachments_all_readable (guess : PyStr → Option PyStr × Option PyStr)
    (fs : PyStr → Option (List Nat)) (paths : List PyStr)
    (hg : ∀ q, (47 : Nat) ∈ guessContentType guess q)
    (hall : ∀ q ∈ paths, (fs q).isSome = true) :
    buildAttachments guess fs paths = .ok (paths.map (attachmentOf guess fs)) := by
  induction paths with
  | nil => rfl
  | cons q rest ih =>
    rw [buildAttachments, splitSlash1_of_mem _ (hg q)]
    obtain ⟨bytes, hby⟩ := Option.isSome_iff_exists.mp (hall q (by simp))
    rw [hby, ih (fun x hx => hall x (by simp [hx])), List.map_cons]
    dsimp only
    rw [show attachmentOf guess fs q =
      ⟨(guessContentType guess q).takeWhile (fun c => c != 47),
        (guessContentType guess q).drop
          (((guessContentType guess q).takeWhile (fun c => c != 47)).length + 1),
        basename q, encodebytes ((fs q).getD [])⟩ from by
      rw [attachmentOf, splitSlash1_of_mem _ (hg q)], hby]
    rfl

/-- Claim C8: compose fails (with the IOError of the first unreadable path,
for the slash-bearing content types `mimetypes.guess_type` produces)
whenever any attachment path cannot be read; when every path is readable it
succeeds and the parts are attached in input order (the container's
attachment list is the input path list mapped, in order, to its built
part). -/
theorem C8_attachment_io :
    (∀ (guess : PyStr → Option PyStr × Option PyStr) (fs : PyStr → Option (List Nat))
        (boundary to_ subject body : PyStr) (paths : List PyStr),
      body.all isScalar = true →
      (∃ p ∈ paths, fs p = none) →
      ∃ e, create_message_with_attachments guess fs boundary to_ subject body
        (some paths) = .error e)
  ∧ (∀ (guess : PyStr → Option PyStr × Option PyStr) (fs : PyStr → Option (List Nat))
        (boundary to_ subject body : PyStr) (pre : List PyStr) (p : PyStr)
        (post : List PyStr),
      body.all isScalar = true →
      (∀ q, (47 : Nat) ∈ guessContentType guess q) →
      (∀ q ∈ pre, (fs q).isSome = true) →
      fs p = none →
      create_message_with_attachments guess fs boundary to_ subject body
        (some (pre ++ p :: post)) = .error (pyStr "IOError: cannot read " ++ p))
  ∧ (∀ (guess : PyStr → Option PyStr × Option PyStr) (fs : PyStr → Option (List Nat))
        (paths : List PyStr),
      (∀ q, (47 : Nat) ∈ guessContentType guess q) →
      (∀ q ∈ paths, (fs q).isSome = true) →
      buildAttachments guess fs paths = .ok (paths.map (attachmentOf guess fs)))
  ∧ (∀ (guess : PyStr → Option PyStr × Option PyStr) (fs : PyStr → Option (List Nat))
        (boundary to_ subject body : PyStr) (paths : List PyStr) (tp : MimeTextPart),
      mimeTextMake body = .ok tp →
      (∀ q, (47 : Nat) ∈ guessContentType guess q) →
      (∀ q ∈ paths, (fs q).isSome = true) →
      buildMime guess fs boundary to_ subject body (some paths) =
        .ok ⟨to_, pyStr "me", subject, boundary, tp,
          paths.map (attachmentOf guess fs)⟩) := by
  refine ⟨?_, ?_, ?_, ?_⟩
  · intro guess fs boundary to_ subject body paths hbody hex
    obtain ⟨tp, htp⟩ := mimeTextMake_ok body hbody
    obtain ⟨e, he⟩ := buildAttachments_error_of_unreadable guess fs paths hex
    refine ⟨e, ?_⟩
    rw [create_message_with_attachments, buildMime, htp]
    dsimp only
    rw [show (some paths).getD [] = paths from rfl, he]
  · intro guess fs boundary to_ subject body pre p post hbody hg hpre hp
    obtain ⟨tp, htp⟩ := mimeTextMake_ok body hbody
    rw [create_message_with_attachments, buildMime, htp]
    dsimp only
    rw [show (some (pre ++ p :: post)).getD [] = pre ++ p :: post from rfl,
      buildAttachments_first_unreadable guess fs pre p post hg hpre hp]
  · exact buildAttachments_all_readable
  · intro guess fs boundary to_ subject body paths tp htp hg hall
    rw [buildMime, htp]
    dsimp only
    rw [show (some paths).getD [] = paths from rfl,
      buildAttachments_all_readable guess fs paths hg hall]

/-- Witness for C8: with a filesystem where `a.txt` is readable and `b.bin`
is not, composing with `[a.txt, b.bin]` fails with the IOError naming
`b.bin`, and with `[a.txt]` alone the container holds exactly that one part;
a two-path readable list is attached in input order. -/
theorem C8_witness :
    create_message_with_attachments
        (fun _ => (some (pyStr "text/plain"), none))
        (fun p => if p = pyStr "a.txt" then some [104, 105] else none)
        (pyStr "b") (pyStr "a@x") (pyStr "s") (pyStr "hi")
        (some [pyStr "a.txt", pyStr "b.bin"]) =
      .error (pyStr "IOError: cannot read " ++ pyStr "b.bin") ∧
    buildAttachments
        (fun _ => (some (pyStr "text/plain"), none))
        (fun p => if p = pyStr "a.txt" then some [104, 105] else none)
        [pyStr "a.txt"] =
      .ok [attachmentOf (fun _ => (some (pyStr "text/plain"), none))
        (fun p => if p = pyStr "a.txt" then some [104, 105] else none) (pyStr "a.txt")] ∧
    buildAttachments
        (fun _ => (some (pyStr "text/plain"), none))
        (fun _ => some [104, 105])
        [pyStr "x/a.txt", pyStr "y.png"] =
      .ok [attachmentOf (fun _ => (some (pyStr "text/plain"), none))
            (fun _ => some ([104, 105] : List Nat)) (pyStr "x/a.txt"),
          attachmentOf (fun _ => (some (pyStr "text/plain"), none))
            (fun _ => some ([104, 105] : List Nat)) (pyStr "y.png")] := by
  refine ⟨?_, ?_, ?_⟩
  · exact C8_attachment_io.2.1 _ _ (pyStr "b") (pyStr "a@x") (pyStr "s") (pyStr "hi")
      [pyStr "a.txt"] (pyStr "b.bin") [] (by decide) (fun q => show (47 : Nat) ∈ pyStr "text/plain" by decide)
      (by decide) (by decide)
  · exact C8_attachment_io.2.2.1 _ _ [pyStr "a.txt"] (fun q => show (47 : Nat) ∈ pyStr "text/plain" by decide) (by decide)
  · exact C8_attachment_io.2.2.1 _ _ [pyStr "x/a.txt", pyStr "y.png"]
      (fun q => show (47 : Nat) ∈ pyStr "text/plain" by decide) (by decide)
